import Mathlib

/-!
Verification development for the `pygmrt` tile-download library.

The repository's core logic lives in `pygmrt/tiles.py` (current revision,
single-box orchestrator) and `src/pygmrt/tiles.py` (earlier revision with a
batch-capable orchestrator).  This file gives a shallow embedding of that
core in Lean 4 and proves the specification's claims about it.

Modelling conventions:
- Python floats are modelled as exact rationals `ℚ`.  All comparisons the
  code performs are order comparisons, which agree with the rational order.
- The filesystem is a map from path strings to `Option ℕ` (the size in
  bytes of the file at that path, `none` when absent).
- Network activity is an oracle: at the orchestrator level a function from
  URL to `Except` of the downloaded size; for the streaming downloader
  itself, a function from attempt index to a description of the HTTP
  response obtained on that attempt.
- Python exceptions are values of an `Except` result; the exception class
  and its message are carried explicitly.
-/

namespace Pygmrt

/-- A Python exception value: the class tag together with `str(e)`. -/
inductive PyErr where
  | valueError (msg : String)
  | runtimeError (msg : String)
  | permissionError (msg : String)
  deriving DecidableEq, Repr

/-- The message `str(e)` of a Python exception. -/
def PyErr.msg : PyErr → String
  | .valueError m => m
  | .runtimeError m => m
  | .permissionError m => m

/-- Is the exception a `ValueError`? -/
def PyErr.isValueError : PyErr → Bool
  | .valueError _ => true
  | _ => false

/-- The filesystem: maps a path to the size of the file there, if any. -/
def FS : Type := String → Option ℕ

/-- Write (or overwrite / delete) the file at path `p`. -/
def setFile (fs : FS) (p : String) (v : Option ℕ) : FS :=
  fun q => if q = p then v else fs q

/-! ## `_validate_bbox` (pygmrt/tiles.py, lines 178–209)

```python
if len(b) != 4:
    raise ValueError("bbox must be a sequence of 4 numbers: [west, south, east, north]")
min_lon, min_lat, max_lon, max_lat = map(float, b)
if not (-180.0 <= min_lon <= 180.0 and -180.0 <= max_lon <= 180.0):
    raise ValueError("longitude values must be in [-180, 180]")
if not (-90.0 <= min_lat <= 90.0 and -90.0 <= max_lat <= 90.0):
    raise ValueError("latitude values must be in [-90, 90]")
if min_lat >= max_lat:
    raise ValueError("south must be < north")
return min_lon, min_lat, max_lon, max_lat
```
`map(float, b)` coerces to float; on our rational model this is the
identity, so the values are returned unchanged. -/
def validateBbox (b : List ℚ) : Except PyErr (ℚ × ℚ × ℚ × ℚ) :=
  match b with
  | [minLon, minLat, maxLon, maxLat] =>
    if ¬(-180 ≤ minLon ∧ minLon ≤ 180 ∧ -180 ≤ maxLon ∧ maxLon ≤ 180) then
      .error (.valueError "longitude values must be in [-180, 180]")
    else if ¬(-90 ≤ minLat ∧ minLat ≤ 90 ∧ -90 ≤ maxLat ∧ maxLat ≤ 90) then
      .error (.valueError "latitude values must be in [-90, 90]")
    else if minLat ≥ maxLat then
      .error (.valueError "south must be < north")
    else
      .ok (minLon, minLat, maxLon, maxLat)
  | _ =>
    .error (.valueError
      "bbox must be a sequence of 4 numbers: [west, south, east, north]")

/-- Model of `_validate_bbox` of the earlier revision (src/pygmrt/tiles.py): the
same checks, with differently worded messages. -/
def validateBboxB (b : List ℚ) : Except PyErr (ℚ × ℚ × ℚ × ℚ) :=
  match b with
  | [minLon, minLat, maxLon, maxLat] =>
    if ¬(-180 ≤ minLon ∧ minLon ≤ 180 ∧ -180 ≤ maxLon ∧ maxLon ≤ 180) then
      .error (.valueError "longitude values must be in [-180, 180]")
    else if ¬(-90 ≤ minLat ∧ minLat ≤ 90 ∧ -90 ≤ maxLat ∧ maxLat ≤ 90) then
      .error (.valueError "latitude values must be in [-90, 90]")
    else if minLat ≥ maxLat then
      .error (.valueError "minLat must be < maxLat")
    else
      .ok (minLon, minLat, maxLon, maxLat)
  | _ =>
    .error (.valueError
      "bbox must be a sequence of 4 numbers: [minLon, minLat, maxLon, maxLat]")

/-! ## `_split_antimeridian` (identical in both revisions)

```python
if min_lon <= max_lon:
    return [(min_lon, max_lon)]
return [(min_lon, 180.0), (-180.0, max_lon)]
``` -/
def splitAntimeridian (minLon maxLon : ℚ) : List (ℚ × ℚ) :=
  if minLon ≤ maxLon then [(minLon, maxLon)]
  else [(minLon, 180), (-180, maxLon)]

/-! ## Decimal rendering

`_safe_filename` renders each coordinate with the Python format spec
`:.3f`.  CPython rounds the value to 3 decimal places with round-half-to-
even and prints sign, integer part, a dot and exactly three fractional
digits.  We model that here over exact rationals. -/

/-- The decimal digit character for `d` (`d ≥ 9` clamps, never reached). -/
def digitChar : ℕ → Char
  | 0 => '0'
  | 1 => '1'
  | 2 => '2'
  | 3 => '3'
  | 4 => '4'
  | 5 => '5'
  | 6 => '6'
  | 7 => '7'
  | 8 => '8'
  | _ => '9'

/-- Digits of `n` in base 10, most significant first, prepended to `acc`;
`fuel` bounds the recursion (`fuel = n` always suffices). -/
def natDigitsAux : ℕ → ℕ → List Char → List Char
  | 0, _, acc => acc
  | fuel + 1, n, acc =>
    if n = 0 then acc
    else natDigitsAux fuel (n / 10) (digitChar (n % 10) :: acc)

/-- Decimal rendering of a natural number. -/
def natStr (n : ℕ) : String :=
  if n = 0 then "0" else String.mk (natDigitsAux n n [])

/-- Decimal rendering of an integer. -/
def intStr (i : ℤ) : String :=
  if i < 0 then "-" ++ natStr i.natAbs else natStr i.natAbs

/-- Round half to even, as IEEE formatting does. -/
def rhe (y : ℚ) : ℤ :=
  if y - ⌊y⌋ < 1 / 2 then ⌊y⌋
  else if y - ⌊y⌋ > 1 / 2 then ⌊y⌋ + 1
  else if ⌊y⌋ % 2 = 0 then ⌊y⌋ else ⌊y⌋ + 1

/-- Exactly three fractional digits (input is `< 1000`). -/
def pad3 (k : ℕ) : String :=
  if k < 10 then "00" ++ natStr k
  else if k < 100 then "0" ++ natStr k
  else natStr k

/-- The Python format `f"{x:.3f}"` on our rational model of floats. -/
def fmt3 (x : ℚ) : String :=
  let m : ℕ := (rhe (|x| * 1000)).toNat
  (if x < 0 then "-" else "") ++ natStr (m / 1000) ++ "." ++ pad3 (m % 1000)

/-- Rendering of a Python float by `str`/`repr`, used inside f-strings for
URLs and error messages.  For integral values Python prints e.g. `200.0`;
for non-integral values we print the exact fraction (the precise text is
never inspected by a claim for non-integral inputs — only injectivity of
the rendering matters there). -/
def pyFloat (q : ℚ) : String :=
  if q.den = 1 then intStr q.num ++ ".0"
  else intStr q.num ++ "/" ++ natStr q.den

/-- Rendering of `list(b)` for a list of floats, as in the batch error
message `f"bbox {list(b)} error: {e}"`. -/
def pyListRepr (b : List ℚ) : String :=
  "[" ++ String.intercalate ", " (b.map pyFloat) ++ "]"

/-! ## `_safe_filename` (pygmrt/tiles.py, lines 233–255)

```python
min_lon, min_lat, max_lon, max_lat = rng
ext = "tif"
return f"{prefix}_{min_lon:.3f}_{min_lat:.3f}_{max_lon:.3f}_{max_lat:.3f}.{ext}"
``` -/
def safeFilename (pre fmt : String) (rng : ℚ × ℚ × ℚ × ℚ) : String :=
  pre ++ "_" ++ fmt3 rng.1 ++ "_" ++ fmt3 rng.2.1 ++ "_" ++ fmt3 rng.2.2.1
    ++ "_" ++ fmt3 rng.2.2.2 ++ "." ++ "tif"

/-- Model of `_safe_filename` of the earlier revision: the extension depends on the
format (`"tif" if fmt == "geotiff" else "png"`). -/
def safeFilenameB (pre fmt : String) (rng : ℚ × ℚ × ℚ × ℚ) : String :=
  pre ++ "_" ++ fmt3 rng.1 ++ "_" ++ fmt3 rng.2.1 ++ "_" ++ fmt3 rng.2.2.1
    ++ "_" ++ fmt3 rng.2.2.2 ++ "."
    ++ (if fmt = "geotiff" then "tif" else "png")

/-! ## `_build_url` -/

def GMRT_BASE_URL : String := "https://www.gmrt.org/services/GridServer"

def OPENTOPO_BASE_URL : String :=
  "https://portal.opentopography.org/API/globaldem"

/-- Model of `_build_url` (pygmrt/tiles.py).  Quote characters of the original
error message are elided. -/
def buildUrl (minLon minLat maxLon maxLat : ℚ) (fmt res : String) :
    Except PyErr String :=
  if fmt ≠ "geotiff" then
    .error (.valueError "GMRT supports only geotiff format")
  else
    .ok (GMRT_BASE_URL ++ "?format=geotiff&west=" ++ pyFloat minLon
      ++ "&east=" ++ pyFloat maxLon ++ "&south=" ++ pyFloat minLat
      ++ "&north=" ++ pyFloat maxLat)

/-- Model of `_opentopo_dataset_for` (src/pygmrt/tiles.py). -/
def opentopoDatasetFor (res : String) : String :=
  if res = "low" then "SRTM15_PLUS"
  else if res = "medium" then "SRTMGL3"
  else "SRTMGL1"

/-- Model of `_build_url` of the earlier revision, with a provider argument;
`apiKey` models `os.getenv("OPENTOPO_API_KEY")`. -/
def buildUrlB (minLon minLat maxLon maxLat : ℚ) (fmt res provider : String)
    (apiKey : Option String) : Except PyErr String :=
  if provider = "gmrt" then
    if fmt ≠ "geotiff" then
      .error (.valueError "GMRT provider currently supports only geotiff format")
    else
      .ok (GMRT_BASE_URL ++ "?format=geotiff&west=" ++ pyFloat minLon
        ++ "&east=" ++ pyFloat maxLon ++ "&south=" ++ pyFloat minLat
        ++ "&north=" ++ pyFloat maxLat)
  else if provider = "opentopo" then
    if fmt ≠ "geotiff" then
      .error (.valueError "OpenTopography provider only supports geotiff format")
    else
      .ok (OPENTOPO_BASE_URL ++ "?demtype=" ++ opentopoDatasetFor res
        ++ "&south=" ++ pyFloat minLat ++ "&north=" ++ pyFloat maxLat
        ++ "&west=" ++ pyFloat minLon ++ "&east=" ++ pyFloat maxLon
        ++ "&outputFormat=GTiff"
        ++ (match apiKey with
            | some k => "&API_Key=" ++ k
            | none => ""))
  else .error (.valueError ("Unknown provider: " ++ provider))

/-! ## Data model -/

inductive Status where
  | created
  | reused
  deriving DecidableEq, Repr

structure BoundingBox where
  west : ℚ
  south : ℚ
  east : ℚ
  north : ℚ
  deriving DecidableEq, Repr

structure ManifestEntry where
  path : String
  format : String
  coverage : BoundingBox
  size_bytes : ℕ
  status : Status
  deriving DecidableEq, Repr

structure DownloadResult where
  entries : List ManifestEntry
  count_created : ℕ
  count_reused : ℕ
  errors : List String
  deriving DecidableEq, Repr

/-- The mutable state an orchestrator invocation threads along: the
`DownloadResult` being accumulated, the filesystem, and a count of the
network downloads performed so far (for "zero network activity" claims). -/
structure OrchState where
  result : DownloadResult
  fs : FS
  netCalls : ℕ

def initState (fs : FS) : OrchState :=
  ⟨⟨[], 0, 0, []⟩, fs, 0⟩

/-! ## Orchestrator, current revision (`download_tiles`, pygmrt/tiles.py)

At this level the streaming downloader is abstracted by a network oracle
`net : String → Except PyErr ℕ`: the outcome of running `_download_stream`
on a URL whose destination file is absent (or forcibly overwritten) — an
exception, or the size of the downloaded file.  Its idempotent
short-circuit and its internals are modelled exactly further below. -/

/-- One iteration of the `for i, (lon_a, lon_b) in enumerate(lon_ranges)`
loop of `_process_one`: build URL and filename, reuse the existing file
when present and `overwrite` is not set, otherwise download.  An exception
carries the state mutated so far. -/
def processCoverage (net : String → Except PyErr ℕ) (overwrite : Bool)
    (destPath fmt res : String) (minLat maxLat : ℚ) (st : OrchState)
    (lr : ℚ × ℚ) : Except (PyErr × OrchState) OrchState :=
  let coverage : BoundingBox := ⟨lr.1, minLat, lr.2, maxLat⟩
  match buildUrl lr.1 minLat lr.2 maxLat fmt res with
  | .error e => .error (e, st)
  | .ok url =>
    let fname := safeFilename "gmrt" fmt (lr.1, minLat, lr.2, maxLat)
    let destFile := destPath ++ "/" ++ fname
    match st.fs destFile, overwrite with
    | some sz, false =>
      .ok ⟨⟨st.result.entries ++ [⟨destFile, fmt, coverage, sz, .reused⟩],
            st.result.count_created, st.result.count_reused + 1,
            st.result.errors⟩, st.fs, st.netCalls⟩
    | _, _ =>
      match net url with
      | .error e => .error (e, st)
      | .ok sz =>
        .ok ⟨⟨st.result.entries ++ [⟨destFile, fmt, coverage, sz, .created⟩],
              st.result.count_created + 1, st.result.count_reused,
              st.result.errors⟩,
             setFile st.fs destFile (some sz), st.netCalls + 1⟩

/-- Model of `_process_one` of the current revision: validate, split, then process
each longitude range in order. -/
def processOne (net : String → Except PyErr ℕ) (overwrite : Bool)
    (destPath fmt res : String) (st : OrchState) (b : List ℚ) :
    Except (PyErr × OrchState) OrchState :=
  match validateBbox b with
  | .error e => .error (e, st)
  | .ok (minLon, minLat, maxLon, maxLat) =>
    (splitAntimeridian minLon maxLon).foldlM
      (processCoverage net overwrite destPath fmt res minLat maxLat) st

/-- Model of `download_tiles` of the current revision.  `destWritable` models
`os.access(dest, os.W_OK)`; directory creation always succeeds in our
filesystem model, so `_ensure_dest` reduces to the writability check.
Quote characters of the original messages are elided.  On an exception
the Python caller observes the exception only; we additionally carry the
discarded `result`/filesystem state so that invariants about it can be
stated. -/
def downloadTiles (net : String → Except PyErr ℕ) (fs : FS)
    (bbox : Option (List ℚ)) (dest : String) (destWritable : Bool)
    (format resolution : String) (overwrite : Bool) :
    Except (PyErr × OrchState) OrchState :=
  let st0 := initState fs
  if bbox = none then
    .error (.valueError "Provide bbox as [west, south, east, north]", st0)
  else if format ≠ "geotiff" then
    .error (.valueError "Unsupported format. Supported: geotiff", st0)
  else if ¬(resolution = "low" ∨ resolution = "medium" ∨ resolution = "high") then
    .error (.valueError "Unsupported resolution. Supported: low, medium, high", st0)
  else if ¬destWritable then
    .error (.permissionError ("Destination not writable: " ++ dest), st0)
  else
    match bbox with
    | none => .error (.valueError "Provide bbox as [west, south, east, north]", st0)
    | some b =>
      match processOne net overwrite dest format resolution st0 b with
      | .ok st => .ok st
      | .error (e, st) =>
        .error (e, ⟨⟨st.result.entries, st.result.count_created,
                     st.result.count_reused,
                     st.result.errors ++ ["bbox error: " ++ e.msg]⟩,
                    st.fs, st.netCalls⟩)

/-! ## Orchestrator, earlier revision (`download_tiles`, src/pygmrt/tiles.py)

The batch-capable variant: `bbox` and `bboxes` are mutually exclusive,
`overwrite` is the string pair skip/overwrite, and a provider argument
selects the URL builder branch. -/

/-- One longitude-range iteration of the earlier revision's
`_process_one`. -/
def processCoverageB (net : String → Except PyErr ℕ) (overwriteSkip : Bool)
    (destPath fmt res provider : String) (apiKey : Option String)
    (minLat maxLat : ℚ) (st : OrchState) (lr : ℚ × ℚ) :
    Except (PyErr × OrchState) OrchState :=
  let coverage : BoundingBox := ⟨lr.1, minLat, lr.2, maxLat⟩
  match buildUrlB lr.1 minLat lr.2 maxLat fmt res provider apiKey with
  | .error e => .error (e, st)
  | .ok url =>
    let fname := safeFilenameB provider fmt (lr.1, minLat, lr.2, maxLat)
    let destFile := destPath ++ "/" ++ fname
    match st.fs destFile, overwriteSkip with
    | some sz, true =>
      .ok ⟨⟨st.result.entries ++ [⟨destFile, fmt, coverage, sz, .reused⟩],
            st.result.count_created, st.result.count_reused + 1,
            st.result.errors⟩, st.fs, st.netCalls⟩
    | _, _ =>
      match net url with
      | .error e => .error (e, st)
      | .ok sz =>
        .ok ⟨⟨st.result.entries ++ [⟨destFile, fmt, coverage, sz, .created⟩],
              st.result.count_created + 1, st.result.count_reused,
              st.result.errors⟩,
             setFile st.fs destFile (some sz), st.netCalls + 1⟩

/-- Model of `_process_one` of the earlier revision. -/
def processOneB (net : String → Except PyErr ℕ) (overwriteSkip : Bool)
    (destPath fmt res provider : String) (apiKey : Option String)
    (st : OrchState) (b : List ℚ) : Except (PyErr × OrchState) OrchState :=
  match validateBboxB b with
  | .error e => .error (e, st)
  | .ok (minLon, minLat, maxLon, maxLat) =>
    (splitAntimeridian minLon maxLon).foldlM
      (processCoverageB net overwriteSkip destPath fmt res provider apiKey
        minLat maxLat) st

/-- The `for b in bboxes` loop body of the earlier revision: a failure is
stringified into `result.errors` and processing continues. -/
def batchStep (net : String → Except PyErr ℕ) (overwriteSkip : Bool)
    (destPath fmt res provider : String) (apiKey : Option String)
    (st : OrchState) (b : List ℚ) : OrchState :=
  match processOneB net overwriteSkip destPath fmt res provider apiKey st b with
  | .ok st1 => st1
  | .error (e, st1) =>
    ⟨⟨st1.result.entries, st1.result.count_created, st1.result.count_reused,
      st1.result.errors ++ ["bbox " ++ pyListRepr b ++ " error: " ++ e.msg]⟩,
     st1.fs, st1.netCalls⟩

/-- Model of `download_tiles` of the earlier revision (batch-capable).
`overwriteSkip` is `overwrite == "skip"`. -/
def downloadTilesB (net : String → Except PyErr ℕ) (fs : FS)
    (bbox : Option (List ℚ)) (bboxes : Option (List (List ℚ)))
    (dest : String) (destWritable : Bool) (format resolution : String)
    (overwriteSkip : Bool) (provider : String) (apiKey : Option String) :
    Except (PyErr × OrchState) OrchState :=
  let st0 := initState fs
  if (bbox = none ∧ bboxes = none) ∨ (bbox ≠ none ∧ bboxes ≠ none) then
    .error (.valueError "Provide either bbox or bboxes, but not both", st0)
  else if ¬(format = "geotiff" ∨ format = "png") then
    .error (.valueError "Unsupported format. Supported: geotiff, png", st0)
  else if ¬(resolution = "low" ∨ resolution = "medium" ∨ resolution = "high") then
    .error (.valueError "Unsupported resolution. Supported: low, medium, high", st0)
  else if ¬destWritable then
    .error (.permissionError ("Destination not writable: " ++ dest), st0)
  else
    match bbox with
    | some b =>
      (match processOneB net overwriteSkip dest format resolution provider
          apiKey st0 b with
       | .ok st => .ok st
       | .error (e, st) =>
         .error (e, ⟨⟨st.result.entries, st.result.count_created,
                      st.result.count_reused,
                      st.result.errors ++ ["bbox error: " ++ e.msg]⟩,
                     st.fs, st.netCalls⟩))
    | none =>
      match bboxes with
      | none =>
        -- unreachable: excluded by the mutual-exclusivity check above
        .error (.valueError "Provide either bbox or bboxes, but not both", st0)
      | some bs =>
        .ok (bs.foldl
          (batchStep net overwriteSkip dest format resolution provider apiKey)
          st0)

/-! ## `_download_stream` in detail (pygmrt/tiles.py, lines 258–373)

The environment of one `requests.get` is modelled by an `Attempt`: either
the request itself raises (connection error, timeout), or a response
arrives with a status, reason phrase, content-type header, body text and
a chunked byte stream, whose write to the temp file may fail after a
prefix of the chunks (`failAfter`) — this is the "failure at any point"
injection of the atomicity claim. -/

inductive Attempt where
  | getFail (msg : String)
  | got (status : ℕ) (reason ctype body : String) (chunks : List ℕ)
        (failAfter : Option ℕ)

/-- Substring test, `needle in hay` on Python strings. -/
def strContains (hay needle : String) : Bool :=
  decide (needle.data <:+: hay.data)

/-- Model of `(r.headers.get("Content-Type") or "").lower()`. -/
def lowerStr (s : String) : String :=
  String.mk (s.data.map Char.toLower)

/-- The content-type sentinel check of `_download_stream`:
`any(t in ctype for t in ["text/html", "text/plain", "application/json"])`
on the lowercased header. -/
def badContentType (ctype : String) : Bool :=
  strContains (lowerStr ctype) "text/html"
    || strContains (lowerStr ctype) "text/plain"
    || strContains (lowerStr ctype) "application/json"

/-- Model of `r.raise_for_status()`, which raises exactly for 4xx/5xx responses. -/
def httpFailure (status : ℕ) : Bool :=
  decide (400 ≤ status)

/-- The outcome (return value or exception) of the body of one `while`
iteration of `_download_stream`, up to and including `tmp.replace(...)`.
It depends only on the attempt's environment, not on the filesystem. -/
def attemptRes (url : String) (a : Attempt) : Except PyErr ℕ :=
  match a with
  | .getFail m => .error (.runtimeError m)
  | .got status reason ctype body chunks failAfter =>
    if httpFailure status then
      .error (.runtimeError ("HTTP error while downloading " ++ url ++ ": "
        ++ natStr status ++ " " ++ reason ++ "\nResponse preview: "
        ++ body.take 1024))
    else if badContentType ctype then
      .error (.runtimeError ("Unexpected content-type " ++ lowerStr ctype
        ++ " for " ++ url ++ ". Response preview: " ++ body.take 1024))
    else
      match failAfter with
      | some _ => .error (.runtimeError "connection broken during body read")
      | none => .ok chunks.sum

/-- The filesystem after the body of one `while` iteration: the temp file
holds the chunks written before any mid-body failure; on full success it
is atomically renamed onto the destination. -/
def attemptFs (dest tmp : String) (a : Attempt) (fs : FS) : FS :=
  match a with
  | .getFail _ => fs
  | .got status _ ctype _ chunks failAfter =>
    if httpFailure status then fs
    else if badContentType ctype then fs
    else
      match failAfter with
      | some k => setFile fs tmp (some ((chunks.take k).sum))
      | none =>
        -- full write to tmp, then `tmp.replace(dest_file)`: the rename
        -- moves the temp file onto `dest`, so `tmp` no longer exists
        setFile (setFile (setFile fs tmp (some chunks.sum)) dest
          (some chunks.sum)) tmp none

/-- Aggregate outcome of `_download_stream`: result or re-raised last
exception, the final filesystem, the sleeps performed (each
`backoff * attempt`), and the number of `requests.get` calls made. -/
structure DSOut where
  res : Except PyErr ℕ
  fs : FS
  delays : List ℚ
  attemptsUsed : ℕ

/-- The `while True` retry loop of `_download_stream`.  `attempt` is the
loop's counter (number of failures so far); `env i` is the environment of
the `i`-th `requests.get`.  The loop always terminates because `attempt`
strictly increases and the `attempt > retries` branch re-raises, so
`fuel = retries + 1 - attempt` suffices; the fuel-exhaustion branch is
unreachable from `dsRun` below.  The `tmp.unlink()` in the handler is
best-effort in the code; our filesystem model has no failing deletes, so
it is modelled as succeeding. -/
def dsLoop (url dest tmp : String) (retries : ℕ) (backoff : ℚ)
    (env : ℕ → Attempt) : FS → ℕ → ℕ → DSOut
  | fs, attempt, 0 => ⟨.error (.runtimeError "unreachable"), fs, [], attempt⟩
  | fs, attempt, fuel + 1 =>
    match attemptRes url (env attempt) with
    | .ok sz => ⟨.ok sz, attemptFs dest tmp (env attempt) fs, [], attempt + 1⟩
    | .error e =>
      let fs1 := setFile (attemptFs dest tmp (env attempt) fs) tmp none
      if attempt + 1 > retries then ⟨.error e, fs1, [], attempt + 1⟩
      else
        let rest := dsLoop url dest tmp retries backoff env fs1 (attempt + 1) fuel
        ⟨rest.res, rest.fs, backoff * (attempt + 1 : ℕ) :: rest.delays,
         rest.attemptsUsed⟩

/-- Model of `_download_stream` itself: the idempotent short-circuit
(`if dest_file.exists() and not overwrite: return size`), the temp path
`dest_file.with_suffix(suffix + ".part")`, then the retry loop. -/
def downloadStream (env : ℕ → Attempt) (url dest : String) (retries : ℕ)
    (backoff : ℚ) (overwrite : Bool) (fs : FS) : DSOut :=
  match fs dest, overwrite with
  | some sz, false => ⟨.ok sz, fs, [], 0⟩
  | _, _ => dsLoop url dest (dest ++ ".part") retries backoff env fs 0
      (retries + 1)

/-! ## `get_path` — the companion accessor

The accessor the unit test `tests/unit/test_first_geotiff_path.py`
imports from `pygmrt.tiles` is absent from the committed module source.

Modelled from the spec: `get_path` scans the manifest entries of a
`DownloadResult` in order and returns the path of the first entry whose
file both exists on disk and carries the expected raster extension
(`.tif`); if none qualifies it fails with a NotFound-style condition —
per the unit test, a `RuntimeError` whose message contains
"No GeoTIFF". -/
def endsWithTif (p : String) : Bool :=
  decide (p.data.reverse.take 4 = ".tif".data.reverse)

def get_path (fs : FS) (r : DownloadResult) : Except PyErr String :=
  match r.entries.find? (fun e => (fs e.path).isSome && endsWithTif e.path) with
  | some e => .ok e.path
  | none => .error (.runtimeError "No GeoTIFF output found (no raster output found)")

/-- Number of manifest entries with the given status. -/
def countStatus (s : Status) (l : List ManifestEntry) : ℕ :=
  (l.filter (fun e => e.status = s)).length

/-- The counter invariant of a `DownloadResult`. -/
def counterInv (r : DownloadResult) : Prop :=
  r.count_created = countStatus .created r.entries ∧
  r.count_reused = countStatus .reused r.entries ∧
  r.count_created + r.count_reused = r.entries.length

/-- The destination file path for one longitude range. -/
def covPath (destPath fmt : String) (minLat maxLat : ℚ) (lr : ℚ × ℚ) :
    String :=
  destPath ++ "/" ++ safeFilename "gmrt" fmt (lr.1, minLat, lr.2, maxLat)

/-- The destination file path for one longitude range, earlier revision
(provider-prefixed name, format-dependent extension). -/
def covPathB (destPath fmt provider : String) (minLat maxLat : ℚ)
    (lr : ℚ × ℚ) : String :=
  destPath ++ "/" ++ safeFilenameB provider fmt (lr.1, minLat, lr.2, maxLat)

/-- A property of the accumulated result that each coverage step
preserves: invariant under appending a reused or a created entry, and
not looking at the filesystem or the network counter. -/
def stepStable (P : OrchState → Prop) : Prop :=
  ∀ (st : OrchState) (x : ManifestEntry) (fs' : FS) (nc : ℕ),
    P st →
    (x.status = .created →
      P ⟨⟨st.result.entries ++ [x], st.result.count_created + 1,
          st.result.count_reused, st.result.errors⟩, fs', nc⟩) ∧
    (x.status = .reused →
      P ⟨⟨st.result.entries ++ [x], st.result.count_created,
          st.result.count_reused + 1, st.result.errors⟩, fs', nc⟩)

theorem setFile_same (fs : FS) (p : String) (v : Option ℕ) :
    setFile fs p v p = v := by
  simp [setFile]

theorem setFile_other (fs : FS) (p q : String) (v : Option ℕ) (h : q ≠ p) :
    setFile fs p v q = fs q := by
  simp [setFile, h]

/-! ## Facts about one download attempt and the retry loop -/

theorem append_part_ne (s : String) : s ++ ".part" ≠ s := by
  intro h
  have hl := congrArg String.length h
  rw [String.length_append] at hl
  have h5 : (".part" : String).length = 5 := rfl
  omega

/-- A failed attempt never touches the destination file. -/
theorem attempt_err_fs (url dest tmp : String) (a : Attempt) (fs : FS)
    (e : PyErr) (hne : tmp ≠ dest) (h : attemptRes url a = .error e) :
    attemptFs dest tmp a fs dest = fs dest := by
  cases a with
  | getFail m => rfl
  | got status reason ctype body chunks failAfter =>
    simp only [attemptRes] at h
    simp only [attemptFs]
    split at h
    · rename_i h1
      rw [if_pos h1]
    · rename_i h1
      split at h
      · rename_i h2
        rw [if_neg h1, if_pos h2]
      · rename_i h2
        rw [if_neg h1, if_neg h2]
        cases failAfter with
        | some k => simp [setFile, Ne.symm hne]
        | none => cases h

/-- A successful attempt renames the fully written temp file onto the
destination: afterwards the destination holds the full body and the temp
file is gone. -/
theorem attempt_ok_fs (url dest tmp : String) (a : Attempt) (fs : FS)
    (sz : ℕ) (hne : tmp ≠ dest) (h : attemptRes url a = .ok sz) :
    attemptFs dest tmp a fs dest = some sz ∧
    attemptFs dest tmp a fs tmp = none := by
  cases a with
  | getFail m => cases h
  | got status reason ctype body chunks failAfter =>
    simp only [attemptRes] at h
    simp only [attemptFs]
    split at h
    · cases h
    · rename_i h1
      split at h
      · cases h
      · rename_i h2
        cases failAfter with
        | some k => cases h
        | none =>
          cases h
          rw [if_neg h1, if_neg h2]
          constructor
          · simp [setFile, Ne.symm hne]
          · simp [setFile]

theorem dsLoop_zero (url dest tmp : String) (retries : ℕ) (backoff : ℚ)
    (env : ℕ → Attempt) (fs : FS) (attempt : ℕ) :
    dsLoop url dest tmp retries backoff env fs attempt 0 =
      ⟨.error (.runtimeError "unreachable"), fs, [], attempt⟩ := rfl

/-- One unfolding of the `while True` iteration. -/
theorem dsLoop_succ (url dest tmp : String) (retries : ℕ) (backoff : ℚ)
    (env : ℕ → Attempt) (fs : FS) (attempt fuel : ℕ) :
    dsLoop url dest tmp retries backoff env fs attempt (fuel + 1) =
      match attemptRes url (env attempt) with
      | .ok sz => ⟨.ok sz, attemptFs dest tmp (env attempt) fs, [],
          attempt + 1⟩
      | .error e =>
        let fs1 := setFile (attemptFs dest tmp (env attempt) fs) tmp none
        if attempt + 1 > retries then ⟨.error e, fs1, [], attempt + 1⟩
        else
          let rest := dsLoop url dest tmp retries backoff env fs1
            (attempt + 1) fuel
          ⟨rest.res, rest.fs, backoff * (attempt + 1 : ℕ) :: rest.delays,
           rest.attemptsUsed⟩ := rfl

/-- Filesystem effect of the retry loop, under the additional hypothesis
that the temp file is initially absent (which holds again after every
failed iteration's cleanup). -/
theorem dsLoop_fs_aux (url dest tmp : String) (retries : ℕ) (backoff : ℚ)
    (env : ℕ → Attempt) (hne : tmp ≠ dest) :
    ∀ (fuel attempt : ℕ) (fs : FS), fs tmp = none →
      (∀ e, (dsLoop url dest tmp retries backoff env fs attempt fuel).res =
          .error e →
        (dsLoop url dest tmp retries backoff env fs attempt fuel).fs dest =
          fs dest ∧
        (dsLoop url dest tmp retries backoff env fs attempt fuel).fs tmp =
          none) ∧
      (∀ sz, (dsLoop url dest tmp retries backoff env fs attempt fuel).res =
          .ok sz →
        (dsLoop url dest tmp retries backoff env fs attempt fuel).fs dest =
          some sz ∧
        (dsLoop url dest tmp retries backoff env fs attempt fuel).fs tmp =
          none) := by
  intro fuel
  induction fuel with
  | zero =>
    intro attempt fs htmp
    rw [dsLoop_zero]
    constructor
    · intro e h
      exact ⟨rfl, htmp⟩
    · intro sz h
      cases h
  | succ fuel ih =>
    intro attempt fs htmp
    rw [dsLoop_succ]
    cases hres : attemptRes url (env attempt) with
    | ok sz0 =>
      constructor
      · intro e h
        cases h
      · intro sz h
        cases h
        exact attempt_ok_fs url dest tmp (env attempt) fs sz0 hne hres
    | error e0 =>
      simp only
      by_cases hgt : attempt + 1 > retries
      · simp only [if_pos hgt]
        constructor
        · intro e h
          refine ⟨?_, setFile_same _ _ _⟩
          rw [setFile_other _ _ _ _ (Ne.symm hne)]
          exact attempt_err_fs url dest tmp (env attempt) fs e0 hne hres
        · intro sz h
          cases h
      · simp only [if_neg hgt]
        have hih := ih (attempt + 1)
          (setFile (attemptFs dest tmp (env attempt) fs) tmp none)
          (setFile_same _ _ _)
        constructor
        · intro e h
          obtain ⟨hd, ht⟩ := hih.1 e h
          refine ⟨?_, ht⟩
          rw [hd, setFile_other _ _ _ _ (Ne.symm hne)]
          exact attempt_err_fs url dest tmp (env attempt) fs e0 hne hres
        · intro sz h
          exact hih.2 sz h

/-- Filesystem effect of the retry loop from its entry point (arbitrary
initial temp-file state; fuel positive, as `_download_stream` supplies). -/
theorem dsLoop_fs_spec (url dest tmp : String) (retries : ℕ) (backoff : ℚ)
    (env : ℕ → Attempt) (hne : tmp ≠ dest) (fuel attempt : ℕ) (fs : FS) :
    (∀ e, (dsLoop url dest tmp retries backoff env fs attempt (fuel + 1)).res
        = .error e →
      (dsLoop url dest tmp retries backoff env fs attempt (fuel + 1)).fs dest
        = fs dest ∧
      (dsLoop url dest tmp retries backoff env fs attempt (fuel + 1)).fs tmp
        = none) ∧
    (∀ sz, (dsLoop url dest tmp retries backoff env fs attempt (fuel + 1)).res
        = .ok sz →
      (dsLoop url dest tmp retries backoff env fs attempt (fuel + 1)).fs dest
        = some sz ∧
      (dsLoop url dest tmp retries backoff env fs attempt (fuel + 1)).fs tmp
        = none) := by
  rw [dsLoop_succ]
  cases hres : attemptRes url (env attempt) with
  | ok sz0 =>
    constructor
    · intro e h
      cases h
    · intro sz h
      cases h
      exact attempt_ok_fs url dest tmp (env attempt) fs sz0 hne hres
  | error e0 =>
    simp only
    by_cases hgt : attempt + 1 > retries
    · simp only [if_pos hgt]
      constructor
      · intro e h
        refine ⟨?_, setFile_same _ _ _⟩
        rw [setFile_other _ _ _ _ (Ne.symm hne)]
        exact attempt_err_fs url dest tmp (env attempt) fs e0 hne hres
      · intro sz h
        cases h
    · simp only [if_neg hgt]
      have hih := dsLoop_fs_aux url dest tmp retries backoff env hne fuel
        (attempt + 1)
        (setFile (attemptFs dest tmp (env attempt) fs) tmp none)
        (setFile_same _ _ _)
      constructor
      · intro e h
        obtain ⟨hd, ht⟩ := hih.1 e h
        refine ⟨?_, ht⟩
        rw [hd, setFile_other _ _ _ _ (Ne.symm hne)]
        exact attempt_err_fs url dest tmp (env attempt) fs e0 hne hres
      · intro sz h
        exact hih.2 sz h

/-- When every attempt fails, the loop performs exactly `retries + 1`
attempts, sleeps `backoff * attempt_number` before each retry (attempt
numbers `attempt+1 .. retries`), and re-raises the last attempt's
failure. -/
theorem dsLoop_allfail (url dest tmp : String) (retries : ℕ) (backoff : ℚ)
    (env : ℕ → Attempt)
    (hfail : ∀ i, ∃ er, attemptRes url (env i) = .error er) :
    ∀ (k attempt : ℕ) (fs : FS), attempt + k = retries →
      (dsLoop url dest tmp retries backoff env fs attempt (k + 1)).res =
        attemptRes url (env retries) ∧
      (dsLoop url dest tmp retries backoff env fs attempt (k + 1)).delays =
        (List.range' (attempt + 1) k).map (fun i : ℕ => backoff * (i : ℚ)) ∧
      (dsLoop url dest tmp retries backoff env fs attempt (k + 1)).attemptsUsed
        = retries + 1 := by
  intro k
  induction k with
  | zero =>
    intro attempt fs hk
    obtain ⟨er, her⟩ := hfail attempt
    rw [dsLoop_succ, her]
    have hgt : attempt + 1 > retries := by omega
    simp only [if_pos hgt]
    have ha : retries = attempt := by omega
    subst ha
    exact ⟨by rw [her], by simp, by simp⟩
  | succ k ih =>
    intro attempt fs hk
    obtain ⟨er, her⟩ := hfail attempt
    rw [dsLoop_succ, her]
    have hgt : ¬(attempt + 1 > retries) := by omega
    simp only [if_neg hgt]
    obtain ⟨hres, hdel, hatt⟩ := ih (attempt + 1)
      (setFile (attemptFs dest tmp (env attempt) fs) tmp none) (by omega)
    refine ⟨hres, ?_, hatt⟩
    rw [List.range'_succ, List.map_cons, hdel]

/-! # Claims -/

/-- C1.  `_validate_bbox` raises a `ValueError` when the input's length is
not 4, when a longitude lies outside `[-180, 180]`, when a latitude lies
outside `[-90, 90]`, or when `south ≥ north`; on any length-4 input
satisfying the ranges and `south < north` it returns the four values (as
floats, unchanged in value) in order west, south, east, north — with
`west > east` (antimeridian) accepted without error or flag. -/
theorem c1_validate_bbox :
    (∀ b : List ℚ, b.length ≠ 4 →
      ∃ m, validateBbox b = .error (.valueError m)) ∧
    (∀ w s e n : ℚ,
      (¬(-180 ≤ w ∧ w ≤ 180 ∧ -180 ≤ e ∧ e ≤ 180)
        ∨ ¬(-90 ≤ s ∧ s ≤ 90 ∧ -90 ≤ n ∧ n ≤ 90)
        ∨ s ≥ n) →
      ∃ m, validateBbox [w, s, e, n] = .error (.valueError m)) ∧
    (∀ w s e n : ℚ,
      -180 ≤ w → w ≤ 180 → -180 ≤ e → e ≤ 180 →
      -90 ≤ s → s ≤ 90 → -90 ≤ n → n ≤ 90 → s < n →
      validateBbox [w, s, e, n] = .ok (w, s, e, n)) := by
  refine ⟨?_, ?_, ?_⟩
  · intro b hb
    match b with
    | [] => exact ⟨_, rfl⟩
    | [_] => exact ⟨_, rfl⟩
    | [_, _] => exact ⟨_, rfl⟩
    | [_, _, _] => exact ⟨_, rfl⟩
    | [_, _, _, _] => simp at hb
    | _ :: _ :: _ :: _ :: _ :: _ => exact ⟨_, rfl⟩
  · intro w s e n h
    simp only [validateBbox]
    split_ifs with h1 h2 h3 <;> first
      | exact ⟨_, rfl⟩
      | (exfalso; tauto)
  · intro w s e n hW1 hW2 hE1 hE2 hS1 hS2 hN1 hN2 hSN
    simp only [validateBbox]
    split_ifs with h1 h2 h3 <;> first
      | rfl
      | exact absurd ⟨hW1, hW2, hE1, hE2⟩ h1
      | exact absurd ⟨hS1, hS2, hN1, hN2⟩ h2
      | exact absurd ⟨hW1, hW2, hE1, hE2⟩ h2
      | exact absurd ⟨hS1, hS2, hN1, hN2⟩ h3
      | exact absurd h1 (not_le.mpr hSN)
      | exact absurd h2 (not_le.mpr hSN)
      | exact absurd h3 (not_le.mpr hSN)

theorem c1_validate_bbox_witness :
    (∃ m, validateBbox [1, 2, 3] = .error (.valueError m)) ∧
    (∃ m, validateBbox [200, -5, 210, 5] = .error (.valueError m)) ∧
    validateBbox [170, -10, -170, 10] = .ok (170, -10, -170, 10) :=
  ⟨c1_validate_bbox.1 [1, 2, 3] (by decide),
   c1_validate_bbox.2.1 200 (-5) 210 5 (Or.inl (by norm_num)),
   c1_validate_bbox.2.2 170 (-10) (-170) 10 (by norm_num) (by norm_num)
     (by norm_num) (by norm_num) (by norm_num) (by norm_num) (by norm_num)
     (by norm_num) (by norm_num)⟩

/-- C2.  `_split_antimeridian` returns `[(west, east)]` when
`west ≤ east`, and `[(west, 180.0), (-180.0, east)]` when `west > east`;
in particular `split(170, -170) = [(170, 180.0), (-180.0, -170)]`, and the
degenerate `west = 180.0, east = -180.0` yields the two zero-width pairs
`[(180.0, 180.0), (-180.0, -180.0)]` rather than an error. -/
theorem c2_split_antimeridian :
    (∀ w e : ℚ, w ≤ e → splitAntimeridian w e = [(w, e)]) ∧
    (∀ w e : ℚ, w > e → splitAntimeridian w e = [(w, 180), (-180, e)]) ∧
    splitAntimeridian 170 (-170) = [(170, 180), (-180, -170)] ∧
    splitAntimeridian 180 (-180) = [(180, 180), (-180, -180)] := by
  refine ⟨fun w e h => ?_, fun w e h => ?_, ?_, ?_⟩
  · simp [splitAntimeridian, h]
  · simp [splitAntimeridian, not_le.mpr h]
  · norm_num [splitAntimeridian]
  · norm_num [splitAntimeridian]

theorem c2_split_antimeridian_witness :
    splitAntimeridian (-10) 10 = [(-10, 10)] ∧
    splitAntimeridian 170 (-170) = [(170, 180), (-180, -170)] :=
  ⟨c2_split_antimeridian.1 (-10) 10 (by norm_num),
   c2_split_antimeridian.2.1 170 (-170) (by norm_num)⟩

/-! ## Invariant plumbing for the orchestrator -/

theorem except_bind_ok {ε α β : Type} (a : α) (k : α → Except ε β) :
    (Except.ok a >>= k) = k a := rfl

theorem except_bind_error {ε α β : Type} (e : ε) (k : α → Except ε β) :
    (Except.error e >>= k : Except ε β) = Except.error e := rfl

/-- An invariant preserved by each step of an `Except`-valued fold (on
both the normal and the exceptional exit, whose payload carries the
mutated state) holds of the fold's outcome. -/
theorem foldlM_except_inv {α σ ε : Type} (f : σ → α → Except (ε × σ) σ)
    (P : σ → Prop)
    (hok : ∀ s a s', f s a = .ok s' → P s → P s')
    (herr : ∀ s a e s', f s a = .error (e, s') → P s → P s') :
    ∀ (l : List α) (s : σ), P s →
      (∀ s', List.foldlM f s l = .ok s' → P s') ∧
      (∀ e s', List.foldlM f s l = .error (e, s') → P s') := by
  intro l
  induction l with
  | nil =>
    intro s hs
    constructor
    · intro s' h
      simp only [List.foldlM_nil] at h
      cases h
      exact hs
    · intro e s' h
      simp only [List.foldlM_nil] at h
      cases h
  | cons a l ih =>
    intro s hs
    constructor
    · intro s' h
      cases h1 : f s a with
      | ok s₁ =>
        rw [List.foldlM_cons, h1, except_bind_ok] at h
        exact (ih s₁ (hok s a s₁ h1 hs)).1 s' h
      | error es =>
        rw [List.foldlM_cons, h1, except_bind_error] at h
        cases h
    · intro e s' h
      cases h1 : f s a with
      | ok s₁ =>
        rw [List.foldlM_cons, h1, except_bind_ok] at h
        exact (ih s₁ (hok s a s₁ h1 hs)).2 e s' h
      | error es =>
        rw [List.foldlM_cons, h1, except_bind_error] at h
        cases h
        exact herr s a e s' h1 hs

theorem countStatus_append (s : Status) (l₁ l₂ : List ManifestEntry) :
    countStatus s (l₁ ++ l₂) = countStatus s l₁ + countStatus s l₂ := by
  simp [countStatus, List.filter_append]

theorem counterInv_append_created (r : DownloadResult) (x : ManifestEntry)
    (hx : x.status = .created) (h : counterInv r) :
    counterInv ⟨r.entries ++ [x], r.count_created + 1, r.count_reused,
      r.errors⟩ := by
  obtain ⟨h1, h2, h3⟩ := h
  refine ⟨?_, ?_, ?_⟩ <;>
    simp [countStatus_append, countStatus, hx, h1, h2, ← h3] <;> omega

theorem counterInv_append_reused (r : DownloadResult) (x : ManifestEntry)
    (hx : x.status = .reused) (h : counterInv r) :
    counterInv ⟨r.entries ++ [x], r.count_created, r.count_reused + 1,
      r.errors⟩ := by
  obtain ⟨h1, h2, h3⟩ := h
  refine ⟨?_, ?_, ?_⟩ <;>
    simp [countStatus_append, countStatus, hx, h1, h2, ← h3] <;> omega

/-- Shape of a normal exit of `processCoverage`: exactly one manifest
entry was appended — reused (file present, `overwrite` unset, filesystem
and network untouched) or created (network consulted once, file
written). -/
theorem processCoverage_ok_shape (net : String → Except PyErr ℕ)
    (ow : Bool) (d f r : String) (latS latN : ℚ) (st st' : OrchState)
    (lr : ℚ × ℚ)
    (h : processCoverage net ow d f r latS latN st lr = .ok st') :
    (∃ sz, st.fs (covPath d f latS latN lr) = some sz ∧ ow = false ∧
      st' = ⟨⟨st.result.entries ++
          [⟨covPath d f latS latN lr, f, ⟨lr.1, latS, lr.2, latN⟩, sz,
            .reused⟩],
        st.result.count_created, st.result.count_reused + 1,
        st.result.errors⟩, st.fs, st.netCalls⟩) ∨
    (∃ sz, st' = ⟨⟨st.result.entries ++
          [⟨covPath d f latS latN lr, f, ⟨lr.1, latS, lr.2, latN⟩, sz,
            .created⟩],
        st.result.count_created + 1, st.result.count_reused,
        st.result.errors⟩,
      setFile st.fs (covPath d f latS latN lr) (some sz),
      st.netCalls + 1⟩) := by
  simp only [processCoverage, covPath] at h ⊢
  split at h
  · cases h
  · split at h
    · rename_i sz hfs
      cases h
      exact Or.inl ⟨sz, hfs, rfl, rfl⟩
    · split at h
      · cases h
      · rename_i sz hn
        cases h
        exact Or.inr ⟨sz, rfl⟩

/-- An exceptional exit of `processCoverage` leaves the state untouched. -/
theorem processCoverage_error_shape (net : String → Except PyErr ℕ)
    (ow : Bool) (d f r : String) (latS latN : ℚ) (st st₁ : OrchState)
    (lr : ℚ × ℚ) (e : PyErr)
    (h : processCoverage net ow d f r latS latN st lr = .error (e, st₁)) :
    st₁ = st := by
  simp only [processCoverage] at h
  split at h
  · cases h; rfl
  · split at h
    · cases h
    · split at h
      · cases h; rfl
      · cases h

/-- Shape of a normal exit of `processCoverageB`. -/
theorem processCoverageB_ok_shape (net : String → Except PyErr ℕ)
    (ows : Bool) (d f r prov : String) (key : Option String)
    (latS latN : ℚ) (st st' : OrchState) (lr : ℚ × ℚ)
    (h : processCoverageB net ows d f r prov key latS latN st lr = .ok st') :
    (∃ sz, st.fs (covPathB d f prov latS latN lr) = some sz ∧ ows = true ∧
      st' = ⟨⟨st.result.entries ++
          [⟨covPathB d f prov latS latN lr, f, ⟨lr.1, latS, lr.2, latN⟩, sz,
            .reused⟩],
        st.result.count_created, st.result.count_reused + 1,
        st.result.errors⟩, st.fs, st.netCalls⟩) ∨
    (∃ sz, st' = ⟨⟨st.result.entries ++
          [⟨covPathB d f prov latS latN lr, f, ⟨lr.1, latS, lr.2, latN⟩, sz,
            .created⟩],
        st.result.count_created + 1, st.result.count_reused,
        st.result.errors⟩,
      setFile st.fs (covPathB d f prov latS latN lr) (some sz),
      st.netCalls + 1⟩) := by
  simp only [processCoverageB, covPathB] at h ⊢
  split at h
  · cases h
  · split at h
    · rename_i sz hfs
      cases h
      exact Or.inl ⟨sz, hfs, rfl, rfl⟩
    · split at h
      · cases h
      · rename_i sz hn
        cases h
        exact Or.inr ⟨sz, rfl⟩

/-- An exceptional exit of `processCoverageB` leaves the state
untouched. -/
theorem processCoverageB_error_shape (net : String → Except PyErr ℕ)
    (ows : Bool) (d f r prov : String) (key : Option String)
    (latS latN : ℚ) (st st₁ : OrchState) (lr : ℚ × ℚ) (e : PyErr)
    (h : processCoverageB net ows d f r prov key latS latN st lr =
      .error (e, st₁)) :
    st₁ = st := by
  simp only [processCoverageB] at h
  split at h
  · cases h; rfl
  · split at h
    · cases h
    · split at h
      · cases h; rfl
      · cases h

theorem processCoverage_preserves (P : OrchState → Prop)
    (hP : stepStable P) (net : String → Except PyErr ℕ) (ow : Bool)
    (d f r : String) (latS latN : ℚ) :
    (∀ st lr st', processCoverage net ow d f r latS latN st lr = .ok st' →
      P st → P st') ∧
    (∀ st lr e st₁,
      processCoverage net ow d f r latS latN st lr = .error (e, st₁) →
      P st → P st₁) := by
  constructor
  · intro st lr st' h hp
    rcases processCoverage_ok_shape net ow d f r latS latN st st' lr h with
      ⟨sz, _, _, rfl⟩ | ⟨sz, rfl⟩
    · exact (hP st _ _ _ hp).2 rfl
    · exact (hP st _ _ _ hp).1 rfl
  · intro st lr e st₁ h hp
    rw [processCoverage_error_shape net ow d f r latS latN st st₁ lr e h]
    exact hp

theorem processCoverageB_preserves (P : OrchState → Prop)
    (hP : stepStable P) (net : String → Except PyErr ℕ) (ows : Bool)
    (d f r prov : String) (key : Option String) (latS latN : ℚ) :
    (∀ st lr st',
      processCoverageB net ows d f r prov key latS latN st lr = .ok st' →
      P st → P st') ∧
    (∀ st lr e st₁,
      processCoverageB net ows d f r prov key latS latN st lr =
        .error (e, st₁) → P st → P st₁) := by
  constructor
  · intro st lr st' h hp
    rcases processCoverageB_ok_shape net ows d f r prov key latS latN st st'
        lr h with ⟨sz, _, _, rfl⟩ | ⟨sz, rfl⟩
    · exact (hP st _ _ _ hp).2 rfl
    · exact (hP st _ _ _ hp).1 rfl
  · intro st lr e st₁ h hp
    rw [processCoverageB_error_shape net ows d f r prov key latS latN st st₁
      lr e h]
    exact hp

/-- Lifting a step-stable property through `_process_one` (current
revision). -/
theorem processOne_preserves (P : OrchState → Prop) (hP : stepStable P)
    (net : String → Except PyErr ℕ) (ow : Bool) (d f r : String) :
    ∀ st b, P st →
      (∀ st', processOne net ow d f r st b = .ok st' → P st') ∧
      (∀ e st₁, processOne net ow d f r st b = .error (e, st₁) → P st₁) := by
  intro st b hp
  have hpc := processCoverage_preserves P hP net ow d f r
  constructor
  · intro st' h
    cases hv : validateBbox b with
    | error e => simp [processOne, hv] at h
    | ok q =>
      obtain ⟨minLon, minLat, maxLon, maxLat⟩ := q
      simp only [processOne, hv] at h
      exact (foldlM_except_inv _ P
        (fun s a s' hh hs => ((hpc minLat maxLat).1) s a s' hh hs)
        (fun s a e s' hh hs => ((hpc minLat maxLat).2) s a e s' hh hs)
        _ st hp).1 st' h
  · intro e st₁ h
    cases hv : validateBbox b with
    | error e₀ =>
      simp only [processOne, hv] at h
      cases h
      exact hp
    | ok q =>
      obtain ⟨minLon, minLat, maxLon, maxLat⟩ := q
      simp only [processOne, hv] at h
      exact (foldlM_except_inv _ P
        (fun s a s' hh hs => ((hpc minLat maxLat).1) s a s' hh hs)
        (fun s a e s' hh hs => ((hpc minLat maxLat).2) s a e s' hh hs)
        _ st hp).2 e st₁ h

/-- Lifting a step-stable property through `_process_one` (earlier
revision). -/
theorem processOneB_preserves (P : OrchState → Prop) (hP : stepStable P)
    (net : String → Except PyErr ℕ) (ows : Bool) (d f r prov : String)
    (key : Option String) :
    ∀ st b, P st →
      (∀ st', processOneB net ows d f r prov key st b = .ok st' → P st') ∧
      (∀ e st₁, processOneB net ows d f r prov key st b = .error (e, st₁) →
        P st₁) := by
  intro st b hp
  have hpc := processCoverageB_preserves P hP net ows d f r prov key
  constructor
  · intro st' h
    cases hv : validateBboxB b with
    | error e => simp [processOneB, hv] at h
    | ok q =>
      obtain ⟨minLon, minLat, maxLon, maxLat⟩ := q
      simp only [processOneB, hv] at h
      exact (foldlM_except_inv _ P
        (fun s a s' hh hs => ((hpc minLat maxLat).1) s a s' hh hs)
        (fun s a e s' hh hs => ((hpc minLat maxLat).2) s a e s' hh hs)
        _ st hp).1 st' h
  · intro e st₁ h
    cases hv : validateBboxB b with
    | error e₀ =>
      simp only [processOneB, hv] at h
      cases h
      exact hp
    | ok q =>
      obtain ⟨minLon, minLat, maxLon, maxLat⟩ := q
      simp only [processOneB, hv] at h
      exact (foldlM_except_inv _ P
        (fun s a s' hh hs => ((hpc minLat maxLat).1) s a s' hh hs)
        (fun s a e s' hh hs => ((hpc minLat maxLat).2) s a e s' hh hs)
        _ st hp).2 e st₁ h

theorem foldl_inv {α σ : Type} (f : σ → α → σ) (P : σ → Prop)
    (hf : ∀ s a, P s → P (f s a)) :
    ∀ (l : List α) (s : σ), P s → P (l.foldl f s) := by
  intro l
  induction l with
  | nil => intro s hs; exact hs
  | cons a l ih => intro s hs; exact ih (f s a) (hf s a hs)

/-- A normal return of `download_tiles` (current revision) comes from a
successful `_process_one` run on the supplied box, after all argument
validations passed. -/
theorem downloadTiles_ok_elim (net : String → Except PyErr ℕ) (fs : FS)
    (bbox : Option (List ℚ)) (dest : String) (dw : Bool)
    (fmt res : String) (ow : Bool) (st : OrchState)
    (h : downloadTiles net fs bbox dest dw fmt res ow = .ok st) :
    ∃ b, bbox = some b ∧ fmt = "geotiff" ∧
      (res = "low" ∨ res = "medium" ∨ res = "high") ∧ dw = true ∧
      processOne net ow dest fmt res (initState fs) b = .ok st := by
  simp only [downloadTiles] at h
  split at h
  · cases h
  split at h
  · cases h
  split at h
  · cases h
  split at h
  · cases h
  rename_i hbb hfmt hres hdw
  split at h
  · cases h
  rename_i b
  split at h
  · rename_i st₁ hpo
    cases h
    exact ⟨b, rfl, not_not.mp hfmt, not_not.mp hres,
      by revert hdw; cases dw <;> simp, hpo⟩
  · cases h

/-- A normal return of `download_tiles` (earlier revision) comes either
from a successful single-box `_process_one` run or from the batch fold. -/
theorem downloadTilesB_ok_elim (net : String → Except PyErr ℕ) (fs : FS)
    (bbox : Option (List ℚ)) (bboxes : Option (List (List ℚ)))
    (dest : String) (dw : Bool) (fmt res : String) (ows : Bool)
    (prov : String) (key : Option String) (st : OrchState)
    (h : downloadTilesB net fs bbox bboxes dest dw fmt res ows prov key =
      .ok st) :
    (∃ b, bbox = some b ∧
      processOneB net ows dest fmt res prov key (initState fs) b = .ok st) ∨
    (bbox = none ∧ ∃ bs, bboxes = some bs ∧
      st = bs.foldl (batchStep net ows dest fmt res prov key)
        (initState fs)) := by
  simp only [downloadTilesB] at h
  split at h
  · cases h
  split at h
  · cases h
  split at h
  · cases h
  split at h
  · cases h
  split at h
  · rename_i b hx0
    split at h
    · rename_i st₁ hpo
      cases h
      exact Or.inl ⟨b, rfl, hpo⟩
    · cases h
  · split at h
    · cases h
    · rename_i bs hx
      cases h
      exact Or.inr ⟨rfl, bs, rfl, rfl⟩

/-- The counter invariant is stable under both kinds of entry append. -/
theorem stepStable_counterInv : stepStable (fun st => counterInv st.result) := by
  intro st x fs' nc hp
  exact ⟨fun hx => counterInv_append_created _ _ hx hp,
    fun hx => counterInv_append_reused _ _ hx hp⟩

theorem counterInv_init (fs : FS) : counterInv (initState fs).result := by
  refine ⟨rfl, rfl, rfl⟩

/-- Preservation: `batchStep` keeps the counter invariant — the per-box entries and
counters survive a failure (the error only appends a message). -/
theorem batchStep_counterInv (net : String → Except PyErr ℕ) (ows : Bool)
    (d f r prov : String) (key : Option String) (st : OrchState)
    (b : List ℚ) (hp : counterInv st.result) :
    counterInv (batchStep net ows d f r prov key st b).result := by
  unfold batchStep
  cases hpo : processOneB net ows d f r prov key st b with
  | ok st₁ =>
    exact (processOneB_preserves _ stepStable_counterInv net ows d f r prov
      key st b hp).1 st₁ hpo
  | error es =>
    obtain ⟨e, st₁⟩ := es
    have h₁ : counterInv st₁.result :=
      (processOneB_preserves _ stepStable_counterInv net ows d f r prov
        key st b hp).2 e st₁ hpo
    exact ⟨h₁.1, h₁.2.1, h₁.2.2⟩

/-- C9.  Every `DownloadResult` returned normally by `download_tiles` (in
either revision, batch mode included) satisfies the counter invariant:
`count_created` is the number of entries with status created,
`count_reused` the number with status reused, and together they exhaust
the entries. -/
theorem c9_counter_invariant :
    (∀ (net : String → Except PyErr ℕ) (fs : FS) (bbox : Option (List ℚ))
      (dest : String) (dw : Bool) (fmt res : String) (ow : Bool)
      (st : OrchState),
      downloadTiles net fs bbox dest dw fmt res ow = .ok st →
      st.result.count_created = countStatus .created st.result.entries ∧
      st.result.count_reused = countStatus .reused st.result.entries ∧
      st.result.count_created + st.result.count_reused =
        st.result.entries.length) ∧
    (∀ (net : String → Except PyErr ℕ) (fs : FS) (bbox : Option (List ℚ))
      (bboxes : Option (List (List ℚ))) (dest : String) (dw : Bool)
      (fmt res : String) (ows : Bool) (prov : String) (key : Option String)
      (st : OrchState),
      downloadTilesB net fs bbox bboxes dest dw fmt res ows prov key =
        .ok st →
      st.result.count_created = countStatus .created st.result.entries ∧
      st.result.count_reused = countStatus .reused st.result.entries ∧
      st.result.count_created + st.result.count_reused =
        st.result.entries.length) := by
  constructor
  · intro net fs bbox dest dw fmt res ow st h
    obtain ⟨b, _, _, _, _, hpo⟩ :=
      downloadTiles_ok_elim net fs bbox dest dw fmt res ow st h
    exact (processOne_preserves _ stepStable_counterInv net ow dest fmt res
      (initState fs) b (counterInv_init fs)).1 st hpo
  · intro net fs bbox bboxes dest dw fmt res ows prov key st h
    rcases downloadTilesB_ok_elim net fs bbox bboxes dest dw fmt res ows
        prov key st h with ⟨b, _, hpo⟩ | ⟨_, bs, _, hst⟩
    · exact (processOneB_preserves _ stepStable_counterInv net ows dest fmt
        res prov key (initState fs) b (counterInv_init fs)).1 st hpo
    · subst hst
      exact foldl_inv _ (fun s => counterInv s.result)
        (fun s a hs => batchStep_counterInv net ows dest fmt res prov key
          s a hs) bs (initState fs) (counterInv_init fs)

theorem c9_counter_invariant_witness :
    ∃ st, downloadTiles (fun _ => .ok 7) (fun _ => none)
        (some [-10, -5, 10, 5]) "out" true "geotiff" "medium" false =
        .ok st ∧
      st.result.count_created = countStatus .created st.result.entries ∧
      st.result.count_reused = countStatus .reused st.result.entries ∧
      st.result.count_created + st.result.count_reused =
        st.result.entries.length := by
  obtain ⟨st, hst⟩ : ∃ st, downloadTiles (fun _ => .ok 7) (fun _ => none)
      (some [-10, -5, 10, 5]) "out" true "geotiff" "medium" false =
      .ok st := ⟨_, rfl⟩
  exact ⟨st, hst, c9_counter_invariant.1 (fun _ => .ok 7) (fun _ => none)
    (some [-10, -5, 10, 5]) "out" true "geotiff" "medium" false st hst⟩

/-- A successful coverage step keeps every present file present (files
are only ever written, never deleted). -/
theorem processCoverage_fs_isSome (net : String → Except PyErr ℕ)
    (ow : Bool) (d f r : String) (latS latN : ℚ) (st st' : OrchState)
    (lr : ℚ × ℚ) (p : String)
    (h : processCoverage net ow d f r latS latN st lr = .ok st')
    (hp : (st.fs p).isSome) : (st'.fs p).isSome := by
  rcases processCoverage_ok_shape net ow d f r latS latN st st' lr h with
    ⟨sz, _, _, rfl⟩ | ⟨sz, rfl⟩
  · exact hp
  · by_cases hq : p = covPath d f latS latN lr
    · subst hq; simp [setFile]
    · simpa [setFile, hq] using hp

/-- A successful coverage step leaves its own destination file present. -/
theorem processCoverage_writes_own (net : String → Except PyErr ℕ)
    (ow : Bool) (d f r : String) (latS latN : ℚ) (st st' : OrchState)
    (lr : ℚ × ℚ)
    (h : processCoverage net ow d f r latS latN st lr = .ok st') :
    (st'.fs (covPath d f latS latN lr)).isSome := by
  rcases processCoverage_ok_shape net ow d f r latS latN st st' lr h with
    ⟨sz, hfs, _, rfl⟩ | ⟨sz, rfl⟩
  · simp [hfs]
  · simp [setFile]

/-- After a successful `_process_one` fold, every processed longitude
range's destination file exists. -/
theorem fold_all_files_exist (net : String → Except PyErr ℕ) (ow : Bool)
    (d f r : String) (latS latN : ℚ) :
    ∀ (L : List (ℚ × ℚ)) (st st' : OrchState),
      L.foldlM (processCoverage net ow d f r latS latN) st = .ok st' →
      ∀ lr ∈ L, (st'.fs (covPath d f latS latN lr)).isSome := by
  intro L
  induction L with
  | nil => intro st st' h lr hlr; cases hlr
  | cons a l ih =>
    intro st st' h lr hlr
    cases h1 : processCoverage net ow d f r latS latN st a with
    | error es =>
      rw [List.foldlM_cons, h1, except_bind_error] at h
      cases h
    | ok st₁ =>
      rw [List.foldlM_cons, h1, except_bind_ok] at h
      rcases List.mem_cons.mp hlr with hlr | hlr
      · subst hlr
        have h₂ := processCoverage_writes_own net ow d f r latS latN st st₁
          lr h1
        exact (foldlM_except_inv _ (fun s => (s.fs (covPath d f latS latN lr)).isSome)
          (fun s x s' hh hs =>
            processCoverage_fs_isSome net ow d f r latS latN s s' x _ hh hs)
          (fun s x e s' hh hs => by
            rw [processCoverage_error_shape net ow d f r latS latN s s' x e hh]
            exact hs)
          l st₁ h₂).1 st' h
      · exact ih st₁ st' h lr hlr

/-- The reuse branch: `processCoverage` takes it when the format is the
supported one, the file exists and `overwrite` is unset. -/
theorem processCoverage_reuse (net : String → Except PyErr ℕ)
    (d r : String) (latS latN : ℚ) (st : OrchState) (lr : ℚ × ℚ) (sz : ℕ)
    (hfs : st.fs (covPath d "geotiff" latS latN lr) = some sz) :
    processCoverage net false d "geotiff" r latS latN st lr =
      .ok ⟨⟨st.result.entries ++
          [⟨covPath d "geotiff" latS latN lr, "geotiff",
            ⟨lr.1, latS, lr.2, latN⟩, sz, .reused⟩],
        st.result.count_created, st.result.count_reused + 1,
        st.result.errors⟩, st.fs, st.netCalls⟩ := by
  simp only [covPath] at hfs
  simp only [processCoverage, buildUrl, covPath]
  simp [hfs]

/-- Running the coverage fold with `overwrite` unset over ranges whose
files all exist touches neither filesystem nor network and appends one
reused entry per range, sized from the existing files. -/
theorem fold_reuse_run (net : String → Except PyErr ℕ) (d r : String)
    (latS latN : ℚ) :
    ∀ (L : List (ℚ × ℚ)) (st : OrchState),
      (∀ lr ∈ L, (st.fs (covPath d "geotiff" latS latN lr)).isSome) →
      ∃ st', L.foldlM (processCoverage net false d "geotiff" r latS latN) st
          = .ok st' ∧
        st'.fs = st.fs ∧ st'.netCalls = st.netCalls ∧
        st'.result.errors = st.result.errors ∧
        st'.result.count_created = st.result.count_created ∧
        ∃ tail, st'.result.entries = st.result.entries ++ tail ∧
          st'.result.count_reused = st.result.count_reused + tail.length ∧
          ∀ en ∈ tail, en.status = .reused ∧
            st.fs en.path = some en.size_bytes := by
  intro L
  induction L with
  | nil =>
    intro st hex
    exact ⟨st, rfl, rfl, rfl, rfl, rfl, [], by simp, rfl,
      fun en hen => absurd hen (List.not_mem_nil en)⟩
  | cons a l ih =>
    intro st hex
    obtain ⟨sz, hsz⟩ := Option.isSome_iff_exists.mp
      (hex a (List.mem_cons_self a l))
    have h1 := processCoverage_reuse net d r latS latN st a sz hsz
    set st₁ : OrchState := ⟨⟨st.result.entries ++
        [⟨covPath d "geotiff" latS latN a, "geotiff",
          ⟨a.1, latS, a.2, latN⟩, sz, .reused⟩],
      st.result.count_created, st.result.count_reused + 1,
      st.result.errors⟩, st.fs, st.netCalls⟩ with hst₁
    obtain ⟨st', hfold, hfs', hnet', herr', hcc', tail, hent', hcr', htail⟩ :=
      ih st₁ (fun lr hlr => hex lr (List.mem_cons_of_mem a hlr))
    refine ⟨st', ?_, hfs', hnet', herr', hcc',
      ⟨covPath d "geotiff" latS latN a, "geotiff",
        ⟨a.1, latS, a.2, latN⟩, sz, .reused⟩ :: tail, ?_, ?_, ?_⟩
    · rw [List.foldlM_cons, h1, except_bind_ok]
      exact hfold
    · simp [hent', hst₁]
    · simp [hcr', hst₁]; omega
    · intro en hen
      rcases List.mem_cons.mp hen with hen | hen
      · subst hen
        exact ⟨rfl, hsz⟩
      · exact htail en hen

/-- A successful `_process_one` run decomposes into a successful
validation and a successful coverage fold. -/
theorem processOne_ok_elim (net : String → Except PyErr ℕ) (ow : Bool)
    (d f r : String) (st : OrchState) (b : List ℚ) (st' : OrchState)
    (h : processOne net ow d f r st b = .ok st') :
    ∃ w s e n, validateBbox b = .ok (w, s, e, n) ∧
      (splitAntimeridian w e).foldlM (processCoverage net ow d f r s n) st
        = .ok st' := by
  cases hv : validateBbox b with
  | error e0 => simp [processOne, hv] at h
  | ok q =>
    obtain ⟨w, s, e, n⟩ := q
    refine ⟨w, s, e, n, rfl, ?_⟩
    simpa [processOne, hv] using h

/-- Rebuilding a `download_tiles` run from a successful `_process_one`
run under valid arguments. -/
theorem downloadTiles_of_processOne (net : String → Except PyErr ℕ)
    (fs : FS) (b : List ℚ) (dest res : String) (ow : Bool)
    (st' : OrchState)
    (hres : res = "low" ∨ res = "medium" ∨ res = "high")
    (hpo : processOne net ow dest "geotiff" res (initState fs) b = .ok st') :
    downloadTiles net fs (some b) dest true "geotiff" res ow = .ok st' := by
  have hstep : downloadTiles net fs (some b) dest true "geotiff" res ow =
      (match processOne net ow dest "geotiff" res (initState fs) b with
       | .ok st => .ok st
       | .error (e, st) =>
         .error (e, ⟨⟨st.result.entries, st.result.count_created,
             st.result.count_reused,
             st.result.errors ++ ["bbox error: " ++ e.msg]⟩,
           st.fs, st.netCalls⟩)) := by
    simp only [downloadTiles]
    rw [if_neg (by simp), if_neg (by simp), if_neg (not_not_intro hres),
      if_neg (by simp)]
  rw [hstep, hpo]

/-- C3.  With the reuse policy active, a second `download_tiles` call on
the same box, destination, format and resolution performs zero network
downloads: it succeeds, every manifest entry is reused with the existing
file's size, `count_created = 0`, `count_reused` equals the number of
entries, and the filesystem is untouched; and `_download_stream` itself
returns an existing destination file's size immediately (no attempt, no
sleep, no filesystem change) when `overwrite` is not forced. -/
theorem c3_idempotent_reuse :
    (∀ (net net2 : String → Except PyErr ℕ) (fs : FS)
      (bbox : Option (List ℚ)) (dest : String) (dw : Bool)
      (fmt res : String) (st1 : OrchState),
      downloadTiles net fs bbox dest dw fmt res false = .ok st1 →
      ∃ st2, downloadTiles net2 st1.fs bbox dest dw fmt res false =
          .ok st2 ∧
        st2.netCalls = 0 ∧
        st2.result.count_created = 0 ∧
        st2.result.count_reused = st2.result.entries.length ∧
        (∀ en ∈ st2.result.entries, en.status = .reused ∧
          st1.fs en.path = some en.size_bytes) ∧
        st2.fs = st1.fs) ∧
    (∀ (env : ℕ → Attempt) (url dest : String) (retries : ℕ)
      (backoff : ℚ) (fs : FS) (sz : ℕ),
      fs dest = some sz →
      downloadStream env url dest retries backoff false fs =
        ⟨.ok sz, fs, [], 0⟩) := by
  constructor
  · intro net net2 fs bbox dest dw fmt res st1 h1
    obtain ⟨b, hb, hfmt, hres, hdw, hpo⟩ :=
      downloadTiles_ok_elim net fs bbox dest dw fmt res false st1 h1
    subst hb
    subst hfmt
    subst hdw
    obtain ⟨w, s, e, n, hv, hfold⟩ :=
      processOne_ok_elim net false dest "geotiff" res (initState fs) b st1
        hpo
    have hex : ∀ lr ∈ splitAntimeridian w e,
        (st1.fs (covPath dest "geotiff" s n lr)).isSome :=
      fold_all_files_exist net false dest "geotiff" res s n
        (splitAntimeridian w e) (initState fs) st1 hfold
    obtain ⟨st2, hfold2, hfs2, hnet2, herr2, hcc2, tail, hent2, hcr2,
        htail⟩ :=
      fold_reuse_run net2 dest res s n (splitAntimeridian w e)
        (initState st1.fs) hex
    have hpo2 : processOne net2 false dest "geotiff" res
        (initState st1.fs) b = .ok st2 := by
      simp only [processOne, hv]
      exact hfold2
    refine ⟨st2,
      downloadTiles_of_processOne net2 st1.fs b dest res false st2 hres
        hpo2, ?_, ?_, ?_, ?_, ?_⟩
    · simpa [initState] using hnet2
    · simpa [initState] using hcc2
    · rw [hcr2, hent2]
      simp [initState]
    · intro en hen
      rw [hent2] at hen
      simp only [initState, List.nil_append] at hen
      exact htail en hen
    · simpa [initState] using hfs2
  · intro env url dest retries backoff fs sz hfs
    simp only [downloadStream, hfs]

theorem c3_idempotent_reuse_witness :
    (∃ st1 st2, downloadTiles (fun _ => .ok 7) (fun _ => none)
        (some [-10, -5, 10, 5]) "out" true "geotiff" "medium" false =
        .ok st1 ∧
      downloadTiles (fun _ => .ok 9) st1.fs (some [-10, -5, 10, 5])
        "out" true "geotiff" "medium" false = .ok st2 ∧
      st2.netCalls = 0 ∧ st2.result.count_created = 0 ∧
      st2.result.count_reused = st2.result.entries.length) ∧
    downloadStream (fun _ => .getFail "boom") "u" "d.tif" 3 (1 / 2) false
      (fun p => if p = "d.tif" then some 5 else none) =
      ⟨.ok 5, fun p => if p = "d.tif" then some 5 else none, [], 0⟩ := by
  constructor
  · obtain ⟨st1, hst1⟩ : ∃ st1, downloadTiles (fun _ => .ok 7)
        (fun _ => none) (some [-10, -5, 10, 5]) "out" true "geotiff"
        "medium" false = .ok st1 := ⟨_, rfl⟩
    obtain ⟨st2, hst2, hn, hc, hr, _, _⟩ :=
      c3_idempotent_reuse.1 (fun _ => .ok 7) (fun _ => .ok 9)
        (fun _ => none) (some [-10, -5, 10, 5]) "out" true "geotiff"
        "medium" st1 hst1
    exact ⟨st1, st2, hst1, hst2, hn, hc, hr⟩
  · exact c3_idempotent_reuse.2 (fun _ => .getFail "boom") "u" "d.tif" 3
      (1 / 2) (fun p => if p = "d.tif" then some 5 else none) 5 (by simp)

/-- The empty-errors property is stable under entry appends. -/
theorem stepStable_noErrors : stepStable (fun st => st.result.errors = []) := by
  intro st x fs' nc hp
  exact ⟨fun _ => hp, fun _ => hp⟩

/-- C10.  In single-box mode every `DownloadResult` actually returned has
an empty error list — in both revisions; on the current revision's
exception path the recorded message exists only in the discarded state
(at most the one message of the re-raise path), so a non-empty error list
can only be returned by the batch mode of the earlier revision. -/
theorem c10_single_box_errors_empty :
    (∀ (net : String → Except PyErr ℕ) (fs : FS) (bbox : Option (List ℚ))
      (dest : String) (dw : Bool) (fmt res : String) (ow : Bool)
      (st : OrchState),
      downloadTiles net fs bbox dest dw fmt res ow = .ok st →
      st.result.errors = []) ∧
    (∀ (net : String → Except PyErr ℕ) (fs : FS) (bbox : Option (List ℚ))
      (dest : String) (dw : Bool) (fmt res : String) (ow : Bool)
      (e : PyErr) (st : OrchState),
      downloadTiles net fs bbox dest dw fmt res ow = .error (e, st) →
      st.result.errors = [] ∨
        st.result.errors = ["bbox error: " ++ e.msg]) ∧
    (∀ (net : String → Except PyErr ℕ) (fs : FS) (b : List ℚ)
      (bboxes : Option (List (List ℚ))) (dest : String) (dw : Bool)
      (fmt res : String) (ows : Bool) (prov : String) (key : Option String)
      (st : OrchState),
      downloadTilesB net fs (some b) bboxes dest dw fmt res ows prov key =
        .ok st →
      st.result.errors = []) := by
  refine ⟨?_, ?_, ?_⟩
  · intro net fs bbox dest dw fmt res ow st h
    obtain ⟨b, _, _, _, _, hpo⟩ :=
      downloadTiles_ok_elim net fs bbox dest dw fmt res ow st h
    exact (processOne_preserves _ stepStable_noErrors net ow dest fmt res
      (initState fs) b rfl).1 st hpo
  · intro net fs bbox dest dw fmt res ow e st h
    simp only [downloadTiles] at h
    split at h
    · cases h; exact Or.inl rfl
    split at h
    · cases h; exact Or.inl rfl
    split at h
    · cases h; exact Or.inl rfl
    split at h
    · cases h; exact Or.inl rfl
    split at h
    · cases h; exact Or.inl rfl
    rename_i b hx1
    split at h
    · cases h
    · rename_i e₀ st₁ hpo
      cases h
      have h₁ : st₁.result.errors = [] :=
        (processOne_preserves _ stepStable_noErrors net ow dest fmt res
          (initState fs) b rfl).2 e st₁ hpo
      exact Or.inr (by simp [h₁])
  · intro net fs b bboxes dest dw fmt res ows prov key st h
    rcases downloadTilesB_ok_elim net fs (some b) bboxes dest dw fmt res ows
        prov key st h with ⟨b', _, hpo⟩ | ⟨hnone, _⟩
    · exact (processOneB_preserves _ stepStable_noErrors net ows dest fmt
        res prov key (initState fs) b' rfl).1 st hpo
    · cases hnone

/-! ## Character-level facts about the filename tokens (for C7) -/

theorem digitChar_ne_underscore (d : ℕ) : digitChar d ≠ '_' := by
  unfold digitChar
  split <;> decide

theorem natDigitsAux_succ (fuel n : ℕ) (acc : List Char) :
    natDigitsAux (fuel + 1) n acc =
      if n = 0 then acc
      else natDigitsAux fuel (n / 10) (digitChar (n % 10) :: acc) := rfl

theorem natDigitsAux_chars : ∀ (fuel n : ℕ) (acc : List Char),
    (∀ c ∈ acc, c ≠ '_') → ∀ c ∈ natDigitsAux fuel n acc, c ≠ '_' := by
  intro fuel
  induction fuel with
  | zero => intro n acc hacc c hc; exact hacc c hc
  | succ fuel ih =>
    intro n acc hacc c hc
    rw [natDigitsAux_succ] at hc
    by_cases hn : n = 0
    · rw [if_pos hn] at hc
      exact hacc c hc
    · rw [if_neg hn] at hc
      refine ih (n / 10) _ ?_ c hc
      intro c' hc'
      rcases List.mem_cons.mp hc' with h | h
      · subst h; exact digitChar_ne_underscore _
      · exact hacc c' h

theorem natStr_chars (n : ℕ) : ∀ c ∈ (natStr n).data, c ≠ '_' := by
  unfold natStr
  split
  · intro c hc
    simp only [show ("0" : String).data = ['0'] from rfl,
      List.mem_singleton] at hc
    subst hc
    decide
  · exact natDigitsAux_chars n n []
      (fun c hc => absurd hc (List.not_mem_nil c))

theorem pad3_chars (k : ℕ) : ∀ c ∈ (pad3 k).data, c ≠ '_' := by
  unfold pad3
  split
  · intro c hc
    rw [String.data_append] at hc
    rcases List.mem_append.mp hc with h | h
    · simp only [show ("00" : String).data = ['0', '0'] from rfl] at h
      rcases List.mem_cons.mp h with h | h
      · subst h; decide
      · simp only [List.mem_singleton] at h; subst h; decide
    · exact natStr_chars k c h
  · split
    · intro c hc
      rw [String.data_append] at hc
      rcases List.mem_append.mp hc with h | h
      · simp only [show ("0" : String).data = ['0'] from rfl,
          List.mem_singleton] at h
        subst h
        decide
      · exact natStr_chars k c h
    · exact natStr_chars k

theorem fmt3_chars (x : ℚ) : ∀ c ∈ (fmt3 x).data, c ≠ '_' := by
  intro c hc
  simp only [fmt3, String.data_append] at hc
  rcases List.mem_append.mp hc with hc | hc
  · rcases List.mem_append.mp hc with hc | hc
    · rcases List.mem_append.mp hc with hc | hc
      · split at hc
        · simp only [show ("-" : String).data = ['-'] from rfl,
            List.mem_singleton] at hc
          subst hc
          decide
        · simp only [show ("" : String).data = [] from rfl] at hc
          cases hc
      · exact natStr_chars _ c hc
    · simp only [show ("." : String).data = ['.'] from rfl,
        List.mem_singleton] at hc
      subst hc
      decide
  · exact pad3_chars _ c hc

theorem fmt3_not_mem_underscore (x : ℚ) : '_' ∉ (fmt3 x).data :=
  fun hm => fmt3_chars x '_' hm rfl

/-- Splitting a character list at the first separator is unambiguous when
neither prefix contains the separator. -/
theorem append_sep_inj : ∀ (a a' b b' : List Char),
    '_' ∉ a → '_' ∉ a' → a ++ '_' :: b = a' ++ '_' :: b' →
    a = a' ∧ b = b' := by
  intro a
  induction a with
  | nil =>
    intro a' b b' ha ha' h
    cases a' with
    | nil => simpa using h
    | cons y a'' =>
      rw [List.nil_append, List.cons_append] at h
      injection h with h1 h2
      subst h1
      exact absurd (List.mem_cons_self _ _) ha'
  | cons x a ih =>
    intro a' b b' ha ha' h
    cases a' with
    | nil =>
      rw [List.cons_append, List.nil_append] at h
      injection h with h1 h2
      subst h1
      exact absurd (List.mem_cons_self _ _) ha
    | cons y a'' =>
      rw [List.cons_append, List.cons_append] at h
      injection h with h1 h2
      subst h1
      obtain ⟨ha1, hb1⟩ := ih a'' b b'
        (fun hm => ha (List.mem_cons_of_mem _ hm))
        (fun hm => ha' (List.mem_cons_of_mem _ hm)) h2
      exact ⟨by rw [ha1], hb1⟩

theorem string_ext {s t : String} (h : s.data = t.data) : s = t := by
  cases s
  cases t
  simp only at h
  rw [h]

/-- The character list underlying a `_safe_filename` result, fully
right-associated. -/
theorem safeFilename_data (pre fmt : String) (rng : ℚ × ℚ × ℚ × ℚ) :
    (safeFilename pre fmt rng).data =
      pre.data ++ '_' :: ((fmt3 rng.1).data ++ '_' :: ((fmt3 rng.2.1).data
        ++ '_' :: ((fmt3 rng.2.2.1).data ++ '_' :: ((fmt3 rng.2.2.2).data
        ++ '.' :: ['t', 'i', 'f'])))) := by
  simp only [safeFilename, String.data_append,
    show ("_" : String).data = ['_'] from rfl,
    show ("." : String).data = ['.'] from rfl,
    show ("tif" : String).data = ['t', 'i', 'f'] from rfl,
    List.append_assoc, List.cons_append, List.nil_append,
    List.singleton_append]

/-- Filenames of coverages that differ in some 3-decimal rendered token
are distinct: equal names force equal token quadruples. -/
theorem safeFilename_inj_tokens (pre fmt : String)
    (c c' : ℚ × ℚ × ℚ × ℚ)
    (h : safeFilename pre fmt c = safeFilename pre fmt c') :
    fmt3 c.1 = fmt3 c'.1 ∧ fmt3 c.2.1 = fmt3 c'.2.1 ∧
    fmt3 c.2.2.1 = fmt3 c'.2.2.1 ∧ fmt3 c.2.2.2 = fmt3 c'.2.2.2 := by
  have hd := congrArg String.data h
  rw [safeFilename_data, safeFilename_data] at hd
  have hd1 := List.append_cancel_left hd
  injection hd1 with _ hd2
  obtain ⟨e1, hd3⟩ := append_sep_inj _ _ _ _ (fmt3_not_mem_underscore c.1)
    (fmt3_not_mem_underscore c'.1) hd2
  obtain ⟨e2, hd4⟩ := append_sep_inj _ _ _ _
    (fmt3_not_mem_underscore c.2.1) (fmt3_not_mem_underscore c'.2.1) hd3
  obtain ⟨e3, hd5⟩ := append_sep_inj _ _ _ _
    (fmt3_not_mem_underscore c.2.2.1) (fmt3_not_mem_underscore c'.2.2.1)
    hd4
  have e4 := List.append_cancel_right hd5
  exact ⟨string_ext e1, string_ext e2, string_ext e3, string_ext e4⟩

/-- Evaluating `rhe` when the fractional part is below one half. -/
theorem rhe_of_floor_lt (y : ℚ) (n : ℤ) (hf : ⌊y⌋ = n)
    (hlt : y - n < 1 / 2) : rhe y = n := by
  unfold rhe
  rw [hf, if_pos hlt]

/-- Unfolding `fmt3` once the rounded integer is known. -/
theorem fmt3_of (x : ℚ) (m : ℤ) (h1 : rhe (|x| * 1000) = m) :
    fmt3 x = (if x < 0 then "-" else "") ++ natStr (m.toNat / 1000)
      ++ "." ++ pad3 (m.toNat % 1000) := by
  simp only [fmt3, h1]

theorem fmt3_neg_ten : fmt3 (-10) = "-10.000" := by
  rw [fmt3_of (-10) 10000 ?_, if_pos (by norm_num : (-10 : ℚ) < 0)]
  · rfl
  · rw [show |(-10 : ℚ)| * 1000 = 10000 by norm_num]
    exact rhe_of_floor_lt _ _ (by norm_num) (by push_cast; norm_num)

theorem fmt3_pos_ten : fmt3 10 = "10.000" := by
  rw [fmt3_of 10 10000 ?_, if_neg (by norm_num : ¬(10 : ℚ) < 0)]
  · rfl
  · rw [show |(10 : ℚ)| * 1000 = 10000 by norm_num]
    exact rhe_of_floor_lt _ _ (by norm_num) (by push_cast; norm_num)

theorem fmt3_ten_p0001 : fmt3 (10.0001 : ℚ) = "10.000" := by
  rw [fmt3_of _ 10000 ?_, if_neg (by norm_num : ¬(10.0001 : ℚ) < 0)]
  · rfl
  · rw [show |(10.0001 : ℚ)| * 1000 = 10000.1 by
      rw [abs_of_nonneg (by norm_num : (0 : ℚ) ≤ 10.0001)]; norm_num]
    refine rhe_of_floor_lt _ _ (by norm_num [Int.floor_eq_iff]) ?_
    push_cast
    norm_num

theorem fmt3_ten_p0002 : fmt3 (10.0002 : ℚ) = "10.000" := by
  rw [fmt3_of _ 10000 ?_, if_neg (by norm_num : ¬(10.0002 : ℚ) < 0)]
  · rfl
  · rw [show |(10.0002 : ℚ)| * 1000 = 10000.2 by
      rw [abs_of_nonneg (by norm_num : (0 : ℚ) ≤ 10.0002)]; norm_num]
    refine rhe_of_floor_lt _ _ (by norm_num [Int.floor_eq_iff]) ?_
    push_cast
    norm_num

/-- C7 counterexample.  Distinct coverages need not yield distinct file
names: two coverages that agree after rounding every coordinate to three
decimals produce the identical name. -/
theorem c7_distinctness_counterexample :
    (10.0001 : ℚ) ≠ (10.0002 : ℚ) ∧
    safeFilename "gmrt" "geotiff" ((10.0001 : ℚ), 0, 1, 2) =
      safeFilename "gmrt" "geotiff" ((10.0002 : ℚ), 0, 1, 2) := by
  constructor
  · norm_num
  · unfold safeFilename
    rw [show ((10.0001 : ℚ), (0 : ℚ), (1 : ℚ), (2 : ℚ)).1 = (10.0001 : ℚ)
        from rfl,
      show ((10.0002 : ℚ), (0 : ℚ), (1 : ℚ), (2 : ℚ)).1 = (10.0002 : ℚ)
        from rfl,
      fmt3_ten_p0001, fmt3_ten_p0002]

/-- C7 (amended).  `_safe_filename` is deterministic (equal inputs give
the identical string); coverages whose 3-decimal coordinate renderings
differ in any position yield distinct names (so distinctness holds
exactly up to the fixed 3-decimal precision, not for all distinct
coverages); and negative coordinates keep their sign at fixed 3-decimal
precision: -10.0 renders as "-10.000", 10.0 as "10.000", and the two
never produce the same name. -/
theorem c7_filename_determinism :
    (∀ (pre fmt : String) (c c' : ℚ × ℚ × ℚ × ℚ), c = c' →
      safeFilename pre fmt c = safeFilename pre fmt c') ∧
    (∀ (pre fmt : String) (c c' : ℚ × ℚ × ℚ × ℚ),
      (fmt3 c.1, fmt3 c.2.1, fmt3 c.2.2.1, fmt3 c.2.2.2) ≠
        (fmt3 c'.1, fmt3 c'.2.1, fmt3 c'.2.2.1, fmt3 c'.2.2.2) →
      safeFilename pre fmt c ≠ safeFilename pre fmt c') ∧
    fmt3 (-10) = "-10.000" ∧ fmt3 10 = "10.000" ∧
    safeFilename "gmrt" "geotiff" (-10, 0, 1, 2) ≠
      safeFilename "gmrt" "geotiff" (10, 0, 1, 2) := by
  refine ⟨fun pre fmt c c' h => by rw [h], ?_, fmt3_neg_ten, fmt3_pos_ten,
    ?_⟩
  · intro pre fmt c c' hne h
    obtain ⟨e1, e2, e3, e4⟩ := safeFilename_inj_tokens pre fmt c c' h
    exact hne (by rw [e1, e2, e3, e4])
  · intro h
    have h1 := (safeFilename_inj_tokens "gmrt" "geotiff" _ _ h).1
    rw [show ((-10 : ℚ), (0 : ℚ), (1 : ℚ), (2 : ℚ)).1 = (-10 : ℚ) from rfl,
      show ((10 : ℚ), (0 : ℚ), (1 : ℚ), (2 : ℚ)).1 = (10 : ℚ) from rfl,
      fmt3_neg_ten, fmt3_pos_ten] at h1
    exact absurd h1 (by decide)

theorem c7_filename_determinism_witness :
    safeFilename "gmrt" "geotiff" (5, 6, 7, 8) =
      safeFilename "gmrt" "geotiff" (5, 6, 7, 8) ∧
    safeFilename "gmrt" "geotiff" (-10, 0, 1, 2) ≠
      safeFilename "gmrt" "geotiff" (10, 0, 1, 2) :=
  ⟨c7_filename_determinism.1 "gmrt" "geotiff" (5, 6, 7, 8) (5, 6, 7, 8)
    rfl,
   c7_filename_determinism.2.1 "gmrt" "geotiff" (-10, 0, 1, 2)
    (10, 0, 1, 2) (by
      intro h
      have h1 := congrArg (fun t => t.1) h
      simp only at h1
      rw [fmt3_neg_ten, fmt3_pos_ten] at h1
      exact absurd h1 (by decide))⟩

/-- A successful `List.find?` splits the list at the first match. -/
theorem find?_split {α : Type} (p : α → Bool) :
    ∀ (l : List α) (a : α), l.find? p = some a →
      ∃ l₁ l₂, l = l₁ ++ a :: l₂ ∧ p a = true ∧ ∀ x ∈ l₁, p x = false := by
  intro l
  induction l with
  | nil => intro a h; cases h
  | cons b l ih =>
    intro a h
    cases hp : p b with
    | true =>
      rw [List.find?_cons, hp] at h
      cases h
      exact ⟨[], l, rfl, hp, fun x hx => absurd hx (List.not_mem_nil x)⟩
    | false =>
      rw [List.find?_cons, hp] at h
      obtain ⟨l₁, l₂, hsplit, hpa, hnone⟩ := ih a h
      refine ⟨b :: l₁, l₂, by rw [hsplit]; rfl, hpa, ?_⟩
      intro x hx
      rcases List.mem_cons.mp hx with hx | hx
      · subst hx; exact hp
      · exact hnone x hx

/-- C8.  The companion accessor scans the manifest entries in order and
returns the path of the first entry whose file exists on disk and has
the `.tif` raster extension; when some entry qualifies it succeeds, and
when no entry qualifies it fails with the NotFound-style condition. -/
theorem c8_get_path :
    (∀ (fs : FS) (r : DownloadResult) (p : String),
      get_path fs r = .ok p →
      ∃ l₁ en l₂, r.entries = l₁ ++ en :: l₂ ∧ en.path = p ∧
        (fs en.path).isSome = true ∧ endsWithTif en.path = true ∧
        ∀ x ∈ l₁,
          ¬((fs x.path).isSome = true ∧ endsWithTif x.path = true)) ∧
    (∀ (fs : FS) (r : DownloadResult),
      (∃ en ∈ r.entries,
        (fs en.path).isSome = true ∧ endsWithTif en.path = true) →
      ∃ p, get_path fs r = .ok p) ∧
    (∀ (fs : FS) (r : DownloadResult),
      (∀ en ∈ r.entries,
        ¬((fs en.path).isSome = true ∧ endsWithTif en.path = true)) →
      get_path fs r =
        .error (.runtimeError
          "No GeoTIFF output found (no raster output found)")) := by
  refine ⟨?_, ?_, ?_⟩
  · intro fs r p h
    unfold get_path at h
    split at h
    · rename_i en hfind
      cases h
      obtain ⟨l₁, l₂, hsplit, hpa, hnone⟩ := find?_split _ _ en hfind
      refine ⟨l₁, en, l₂, hsplit, rfl, ?_, ?_, ?_⟩
      · exact (Bool.and_eq_true _ _ ▸ hpa).1
      · exact (Bool.and_eq_true _ _ ▸ hpa).2
      · intro x hx hand
        have hf := hnone x hx
        simp [hand.1, hand.2] at hf
    · cases h
  · intro fs r ⟨en, hen, h1, h2⟩
    unfold get_path
    cases hfind : r.entries.find?
        (fun e => (fs e.path).isSome && endsWithTif e.path) with
    | some e => exact ⟨e.path, rfl⟩
    | none =>
      have hne := List.find?_eq_none.mp hfind en hen
      simp [h1, h2] at hne
  · intro fs r hnone
    unfold get_path
    cases hfind : r.entries.find?
        (fun e => (fs e.path).isSome && endsWithTif e.path) with
    | some e =>
      have hmem := List.mem_of_find?_eq_some hfind
      have hp := List.find?_some hfind
      rw [Bool.and_eq_true] at hp
      exact absurd ⟨hp.1, hp.2⟩ (hnone e hmem)
    | none => rfl

theorem c8_get_path_witness :
    ∃ p, get_path (fun q => if q = "out/a.tif" then some 3 else none)
      ⟨[⟨"out/a.tif", "geotiff", ⟨0, 0, 1, 1⟩, 3, .created⟩], 1, 0, []⟩ =
      .ok p := by
  refine c8_get_path.2.1 _ _
    ⟨⟨"out/a.tif", "geotiff", ⟨0, 0, 1, 1⟩, 3, .created⟩, ?_, ?_, ?_⟩
  · simp
  · rfl
  · rfl

/-- C6.  In batch mode a per-box failure is stringified and appended to
the error list and the fold continues with the next box; in single-box
mode a failure is recorded in the (discarded) result's error list and
then re-raised; and on the batch `[[-10,-5,10,5], [200,-5,210,5]]` the
call returns normally with exactly one error message referencing the
second box while the first box's coverage is present with status
created. -/
theorem c6_batch_isolation :
    (∀ (net : String → Except PyErr ℕ) (ows : Bool)
      (d f r prov : String) (key : Option String) (st : OrchState)
      (b : List ℚ) (e : PyErr) (st₁ : OrchState),
      processOneB net ows d f r prov key st b = .error (e, st₁) →
      batchStep net ows d f r prov key st b =
        ⟨⟨st₁.result.entries, st₁.result.count_created,
          st₁.result.count_reused,
          st₁.result.errors ++
            ["bbox " ++ pyListRepr b ++ " error: " ++ e.msg]⟩,
         st₁.fs, st₁.netCalls⟩) ∧
    (∀ (net : String → Except PyErr ℕ) (fs : FS) (b : List ℚ)
      (dest res : String) (ows : Bool) (prov : String)
      (key : Option String) (e : PyErr) (st₁ : OrchState),
      (res = "low" ∨ res = "medium" ∨ res = "high") →
      processOneB net ows dest "geotiff" res prov key (initState fs) b =
        .error (e, st₁) →
      downloadTilesB net fs (some b) none dest true "geotiff" res ows prov
        key =
        .error (e, ⟨⟨st₁.result.entries, st₁.result.count_created,
            st₁.result.count_reused,
            st₁.result.errors ++ ["bbox error: " ++ e.msg]⟩,
          st₁.fs, st₁.netCalls⟩)) ∧
    (∃ st, downloadTilesB (fun _ => .ok 7) (fun _ => none) none
        (some [[-10, -5, 10, 5], [200, -5, 210, 5]]) "out" true "geotiff"
        "medium" true "gmrt" none = .ok st ∧
      st.result.errors =
        ["bbox [200.0, -5.0, 210.0, 5.0] error: longitude values must be in [-180, 180]"] ∧
      st.result.entries.map (fun en => (en.status, en.coverage)) =
        [(.created, ⟨-10, -5, 10, 5⟩)]) := by
  refine ⟨?_, ?_, ?_⟩
  · intro net ows d f r prov key st b e st₁ h
    unfold batchStep
    rw [h]
  · intro net fs b dest res ows prov key e st₁ hres hpo
    have hstep : downloadTilesB net fs (some b) none dest true "geotiff"
        res ows prov key =
        (match processOneB net ows dest "geotiff" res prov key
            (initState fs) b with
         | .ok st => .ok st
         | .error (e, st) =>
           .error (e, ⟨⟨st.result.entries, st.result.count_created,
               st.result.count_reused,
               st.result.errors ++ ["bbox error: " ++ e.msg]⟩,
             st.fs, st.netCalls⟩)) := by
      simp only [downloadTilesB]
      rw [if_neg (by simp), if_neg (by simp), if_neg (not_not_intro hres),
        if_neg (by simp)]
    rw [hstep, hpo]
  · refine ⟨_, rfl, ?_, ?_⟩ <;> rfl

theorem c6_batch_isolation_witness :
    (batchStep (fun _ => .ok 7) true "out" "geotiff" "medium" "gmrt" none
        (initState (fun _ => none)) [200, -5, 210, 5]).result.errors =
      ["bbox [200.0, -5.0, 210.0, 5.0] error: longitude values must be in [-180, 180]"] ∧
    downloadTilesB (fun _ => .ok 7) (fun _ => none)
        (some [200, -5, 210, 5]) none "out" true "geotiff" "medium" true
        "gmrt" none =
      .error (.valueError "longitude values must be in [-180, 180]",
        ⟨⟨[], 0, 0, ["bbox error: longitude values must be in [-180, 180]"]⟩,
         fun _ => none, 0⟩) := by
  constructor
  · rw [c6_batch_isolation.1 (fun _ => .ok 7) true "out" "geotiff" "medium"
      "gmrt" none (initState (fun _ => none)) [200, -5, 210, 5]
      (.valueError "longitude values must be in [-180, 180]")
      (initState (fun _ => none)) rfl]
    rfl
  · exact c6_batch_isolation.2.1 (fun _ => .ok 7) (fun _ => none)
      [200, -5, 210, 5] "out" "medium" true "gmrt" none
      (.valueError "longitude values must be in [-180, 180]")
      (initState (fun _ => none)) (Or.inr (Or.inl rfl)) rfl

/-- C4 counterexample.  The claim "the `.part` temporary file … never
remains after success" fails on the reuse short-circuit: when the
destination already exists and `overwrite` is not forced,
`_download_stream` returns successfully without touching the filesystem,
so a pre-existing stale `.part` file (e.g. left by an earlier crash whose
best-effort unlink failed) remains after a successful return. -/
theorem c4_stale_part_counterexample :
    (downloadStream (fun _ => .getFail "boom") "u" "d.tif" 3 (1 / 2) false
        (fun p => if p = "d.tif" then some 7
          else if p = "d.tif.part" then some 3 else none)).res = .ok 7 ∧
    (downloadStream (fun _ => .getFail "boom") "u" "d.tif" 3 (1 / 2) false
        (fun p => if p = "d.tif" then some 7
          else if p = "d.tif.part" then some 3 else none)).fs
      "d.tif.part" = some 3 := by
  constructor
  · rfl
  · rfl

/-- C4 (amended).  For every invocation of `_download_stream` that takes
the download path, a failure at any point leaves the destination exactly
as it was and removes the `.part` temp file (modelling the best-effort
unlink as succeeding), and a success atomically renames the fully
written temp file onto the destination (so the final path holds the
complete body and no `.part` file remains); the reuse short-circuit
returns with the filesystem — including any pre-existing `.part` file —
entirely untouched. -/
theorem c4_download_atomicity :
    ∀ (env : ℕ → Attempt) (url dest : String) (retries : ℕ) (backoff : ℚ)
      (ow : Bool) (fs : FS),
      (∀ e, (downloadStream env url dest retries backoff ow fs).res =
          .error e →
        (downloadStream env url dest retries backoff ow fs).fs dest =
          fs dest ∧
        (downloadStream env url dest retries backoff ow fs).fs
          (dest ++ ".part") = none) ∧
      ((fs dest = none ∨ ow = true) →
        ∀ sz, (downloadStream env url dest retries backoff ow fs).res =
            .ok sz →
          (downloadStream env url dest retries backoff ow fs).fs dest =
            some sz ∧
          (downloadStream env url dest retries backoff ow fs).fs
            (dest ++ ".part") = none) ∧
      (∀ sz, fs dest = some sz → ow = false →
        downloadStream env url dest retries backoff ow fs =
          ⟨.ok sz, fs, [], 0⟩) := by
  intro env url dest retries backoff ow fs
  have hne : dest ++ ".part" ≠ dest := append_part_ne dest
  by_cases hdl : ∃ sz0, fs dest = some sz0 ∧ ow = false
  · obtain ⟨sz0, hd, how⟩ := hdl
    subst how
    have hds : downloadStream env url dest retries backoff false fs =
        ⟨.ok sz0, fs, [], 0⟩ := by
      simp [downloadStream, hd]
    rw [hds]
    refine ⟨?_, ?_, ?_⟩
    · intro e h
      cases h
    · intro hor sz hsz
      rcases hor with hn | ht
      · rw [hn] at hd; cases hd
      · cases ht
    · intro sz hsz how
      rw [hd] at hsz
      cases hsz
      rfl
  · have hds : downloadStream env url dest retries backoff ow fs =
        dsLoop url dest (dest ++ ".part") retries backoff env fs 0
          (retries + 1) := by
      cases hd : fs dest with
      | none => cases ow <;> simp [downloadStream, hd]
      | some sz0 =>
        cases ow with
        | true => simp [downloadStream, hd]
        | false => exact absurd ⟨sz0, hd, rfl⟩ hdl
    have hspec := dsLoop_fs_spec url dest (dest ++ ".part") retries backoff
      env hne retries 0 fs
    rw [hds]
    refine ⟨hspec.1, fun _ => hspec.2, ?_⟩
    intro sz hsz how
    exact absurd ⟨sz, hsz, how⟩ hdl

theorem c4_download_atomicity_witness :
    (downloadStream (fun _ => .getFail "boom") "u" "d.tif" 2 (1 / 2) false
        (fun _ => none)).res =
      .error (.runtimeError "boom") ∧
    (downloadStream (fun _ => .getFail "boom") "u" "d.tif" 2 (1 / 2) false
        (fun _ => none)).fs "d.tif" = none ∧
    (downloadStream (fun _ => .getFail "boom") "u" "d.tif" 2 (1 / 2) false
        (fun _ => none)).fs "d.tif.part" = none := by
  have h := (c4_download_atomicity (fun _ => .getFail "boom") "u" "d.tif" 2
    (1 / 2) false (fun _ => none)).1 (.runtimeError "boom") rfl
  exact ⟨rfl, h.1, h.2⟩

/-- C5.  A response is classified as a failure exactly when the HTTP
status is non-success (4xx/5xx — `raise_for_status`) or the lowercased
content-type contains one of the three error sentinels (even under
status 200); both failure messages end with the first 1024 characters of
the response body; and when every attempt fails, `_download_stream` on
the download path performs exactly `retries + 1` attempts, sleeping
`backoff * attempt_number` before retry `attempt_number + 1`, removes the
partial temp file, and re-raises the last attempt's failure. -/
theorem c5_failure_classification_and_retry :
    (∀ (url : String) (status : ℕ) (reason ctype body : String)
      (chunks : List ℕ),
      (∃ er, attemptRes url (.got status reason ctype body chunks none) =
        .error er) ↔ (400 ≤ status ∨ badContentType ctype = true)) ∧
    (∀ (url : String) (status : ℕ) (reason ctype body : String)
      (chunks : List ℕ) (fa : Option ℕ),
      400 ≤ status →
      ∃ p, attemptRes url (.got status reason ctype body chunks fa) =
        .error (.runtimeError (p ++ body.take 1024))) ∧
    (∀ (url : String) (status : ℕ) (reason ctype body : String)
      (chunks : List ℕ) (fa : Option ℕ),
      ¬400 ≤ status → badContentType ctype = true →
      ∃ p, attemptRes url (.got status reason ctype body chunks fa) =
        .error (.runtimeError (p ++ body.take 1024))) ∧
    (∀ (env : ℕ → Attempt) (url dest : String) (retries : ℕ)
      (backoff : ℚ) (fs : FS),
      fs dest = none →
      (∀ i, ∃ er, attemptRes url (env i) = .error er) →
      (downloadStream env url dest retries backoff false fs).res =
        attemptRes url (env retries) ∧
      (downloadStream env url dest retries backoff false fs).delays =
        (List.range' 1 retries).map (fun i : ℕ => backoff * (i : ℚ)) ∧
      (downloadStream env url dest retries backoff false fs).attemptsUsed =
        retries + 1 ∧
      (downloadStream env url dest retries backoff false fs).fs
        (dest ++ ".part") = none) := by
  refine ⟨?_, ?_, ?_, ?_⟩
  · intro url status reason ctype body chunks
    constructor
    · rintro ⟨er, h⟩
      simp only [attemptRes] at h
      split at h
      · rename_i h1
        exact Or.inl (by simpa [httpFailure] using h1)
      · split at h
        · rename_i h2
          exact Or.inr h2
        · cases h
    · intro hor
      by_cases hst : httpFailure status = true
      · refine ⟨.runtimeError ("HTTP error while downloading " ++ url
          ++ ": " ++ natStr status ++ " " ++ reason
          ++ "\nResponse preview: " ++ body.take 1024), ?_⟩
        simp [attemptRes, hst]
      · rcases hor with h4 | hbad
        · exact absurd (by simpa [httpFailure] using h4) hst
        · refine ⟨.runtimeError ("Unexpected content-type "
            ++ lowerStr ctype ++ " for " ++ url ++ ". Response preview: "
            ++ body.take 1024), ?_⟩
          simp [attemptRes, hst, hbad]
  · intro url status reason ctype body chunks fa h4
    have hst : httpFailure status = true := by simpa [httpFailure] using h4
    refine ⟨"HTTP error while downloading " ++ url ++ ": "
      ++ natStr status ++ " " ++ reason ++ "\nResponse preview: ", ?_⟩
    simp [attemptRes, hst]
  · intro url status reason ctype body chunks fa h4 hbad
    have hst : ¬httpFailure status = true := by simpa [httpFailure] using h4
    refine ⟨"Unexpected content-type " ++ lowerStr ctype ++ " for " ++ url
      ++ ". Response preview: ", ?_⟩
    simp [attemptRes, hst, hbad]
  · intro env url dest retries backoff fs hd hfail
    have hds : downloadStream env url dest retries backoff false fs =
        dsLoop url dest (dest ++ ".part") retries backoff env fs 0
          (retries + 1) := by
      simp [downloadStream, hd]
    have hne : dest ++ ".part" ≠ dest := append_part_ne dest
    obtain ⟨hres, hdel, hatt⟩ := dsLoop_allfail url dest (dest ++ ".part")
      retries backoff env hfail retries 0 fs (by omega)
    obtain ⟨er, her⟩ := hfail retries
    have hcln := (dsLoop_fs_spec url dest (dest ++ ".part") retries backoff
      env hne retries 0 fs).1 er (by rw [hres, her])
    rw [hds]
    refine ⟨hres, ?_, hatt, hcln.2⟩
    simpa using hdel

theorem c5_failure_classification_and_retry_witness :
    (∃ er, attemptRes "u" (.got 200 "OK" "text/html" "<html>err" [5] none) =
      .error er) ∧
    (∃ p, attemptRes "u" (.got 404 "Not Found" "image/tiff" "oops" [5] none)
      = .error (.runtimeError (p ++ ("oops" : String).take 1024))) ∧
    (∃ p, attemptRes "u" (.got 200 "OK" "application/json" "fail" [5] none)
      = .error (.runtimeError (p ++ ("fail" : String).take 1024))) ∧
    ((downloadStream (fun _ => .getFail "boom") "u" "d.tif" 2 (1 / 2) false
        (fun _ => none)).res = .error (.runtimeError "boom") ∧
      (downloadStream (fun _ => .getFail "boom") "u" "d.tif" 2 (1 / 2)
        false (fun _ => none)).delays =
        (List.range' 1 2).map (fun i : ℕ => (1 / 2 : ℚ) * (i : ℚ)) ∧
      (downloadStream (fun _ => .getFail "boom") "u" "d.tif" 2 (1 / 2)
        false (fun _ => none)).attemptsUsed = 2 + 1 ∧
      (downloadStream (fun _ => .getFail "boom") "u" "d.tif" 2 (1 / 2)
        false (fun _ => none)).fs ("d.tif" ++ ".part") = none) := by
  refine ⟨?_, ?_, ?_, ?_⟩
  · exact (c5_failure_classification_and_retry.1 "u" 200 "OK" "text/html"
      "<html>err" [5]).mpr (Or.inr (by decide))
  · exact c5_failure_classification_and_retry.2.1 "u" 404 "Not Found"
      "image/tiff" "oops" [5] none (by decide)
  · exact c5_failure_classification_and_retry.2.2.1 "u" 200 "OK"
      "application/json" "fail" [5] none (by decide) (by decide)
  · exact c5_failure_classification_and_retry.2.2.2
      (fun _ => .getFail "boom") "u" "d.tif" 2 (1 / 2) (fun _ => none) rfl
      (fun i => ⟨.runtimeError "boom", rfl⟩)

theorem c10_single_box_errors_empty_witness :
    ∃ st, downloadTiles (fun _ => .ok 7) (fun _ => none)
        (some [-10, -5, 10, 5]) "out" true "geotiff" "medium" false =
        .ok st ∧ st.result.errors = [] := by
  obtain ⟨st, hst⟩ : ∃ st, downloadTiles (fun _ => .ok 7) (fun _ => none)
      (some [-10, -5, 10, 5]) "out" true "geotiff" "medium" false =
      .ok st := ⟨_, rfl⟩
  exact ⟨st, hst, c10_single_box_errors_empty.1 (fun _ => .ok 7)
    (fun _ => none) (some [-10, -5, 10, 5]) "out" true "geotiff" "medium"
    false st hst⟩

end Pygmrt
